import Mathlib

/-
  Verification development for the rfq_system repository.

  The development shallowly embeds:
  * the keccak-256 hash (used by both the TypeScript hasher via ethers and the
    Solidity contracts) as an executable function on byte lists;
  * the off-chain TypeScript EIP-712 hashing helpers from eip712_utils.ts
    (createExchangeProxyEIP712Domain, getExchangeProxyEIP712DomainHash,
    getExchangeProxyEIP712Hash);
  * the on-chain Solidity hashing from contracts/protocol/FixinEIP712.sol;
  * the settlement and cancellation engines from
    contracts/protocol/NativeOrdersSettlement.sol and
    NativeOrdersCancellation.sol, with uint128/uint256 arithmetic embedded as
    Nat with explicit Solidity 0.8 checked-arithmetic failure on overflow,
    underflow and division by zero, and an EVM revert embedded as Except.error
    (an error outcome leaves the pre-call state in force, mirroring the
    all-or-nothing transaction semantics of the ledger).

  Addresses, token identities, order hashes, pools and signatures are embedded
  as Nat values.  Machine words are Nat with explicit bounds (UINT128_MAX,
  HIGH_BIT).
-/

set_option maxRecDepth 100000
set_option maxHeartbeats 4000000

/-! ## Keccak-256, executable on byte lists (bytes are Nat values below 256) -/

def U64MASK : Nat := 0xFFFFFFFFFFFFFFFF

/-- Rotate a 64-bit lane left by n bits (0 ≤ n < 64). -/
def rotl64 (x n : Nat) : Nat :=
  ((x <<< n) ||| (x >>> (64 - n))) &&& U64MASK

/-- One step of the degree-8 LFSR (x^8 + x^6 + x^5 + x^4 + 1) that generates
the round-constant bits of keccak-f. -/
def rcStep (r : Nat) : Nat := ((r <<< 1) ^^^ ((r >>> 7) * 0x71)) % 256

/-- Round constants of the keccak-f[1600] permutation, generated by the
LFSR: bit (2^j - 1) of round constant i collects bit 1 of the running LFSR
state. -/
def keccakRoundConstants : List Nat :=
  ((List.range 24).foldl (fun (st : List Nat × Nat) _ =>
    let inner := (List.range 7).foldl (fun (p : Nat × Nat) j =>
      let r2 := rcStep p.2
      (if r2 &&& 2 = 2 then p.1 ^^^ (1 <<< ((1 <<< j) - 1)) else p.1, r2)) (0, st.2)
    (st.1 ++ [inner.1], inner.2)) ([], 1)).1

/-- The rho-pi walk (x, y) to (y, (2x + 3y) % 5) starting at (1, 0), paired
with the triangular rotation amounts (t+1)(t+2)/2 mod 64: each visited flat
index x + 5y receives its rotation offset. -/
def rhoPairs : List (Nat × Nat) :=
  ((List.range 24).foldl (fun (st : List (Nat × Nat) × Nat × Nat) t =>
    (st.1 ++ [(st.2.1 + 5 * st.2.2, (t + 1) * (t + 2) / 2 % 64)],
     st.2.2, (2 * st.2.1 + 3 * st.2.2) % 5)) ([], 1, 0)).1

/-- Rotation offsets of the rho step, indexed by x + 5 * y (lane (0, 0),
never visited by the walk, keeps offset 0). -/
def rhoOffsets : List Nat :=
  (List.range 25).map (fun i => (((rhoPairs.find? (fun p => p.1 = i)).map Prod.snd).getD 0))

/-- Theta step of keccak-f.  The state is a list of 25 lanes, lane (x, y)
stored at index x + 5 * y. -/
def keccakTheta (s : List Nat) : List Nat :=
  let c := (List.range 5).map (fun x =>
    s.getD x 0 ^^^ s.getD (x + 5) 0 ^^^ s.getD (x + 10) 0 ^^^ s.getD (x + 15) 0 ^^^ s.getD (x + 20) 0)
  let d := (List.range 5).map (fun x =>
    c.getD ((x + 4) % 5) 0 ^^^ rotl64 (c.getD ((x + 1) % 5) 0) 1)
  (List.range 25).map (fun i => s.getD i 0 ^^^ d.getD (i % 5) 0)

/-- Combined rho and pi steps: output lane (X, Y) with X = y and
Y = (2x + 3y) % 5 is the input lane (x, y) rotated by its rho offset. -/
def keccakRhoPi (s : List Nat) : List Nat :=
  (List.range 25).map (fun i =>
    let bigX := i % 5
    let bigY := i / 5
    let y := bigX
    let x := (3 * (bigY + 15 - 3 * bigX)) % 5
    rotl64 (s.getD (x + 5 * y) 0) (rhoOffsets.getD (x + 5 * y) 0))

/-- Chi step of keccak-f. -/
def keccakChi (b : List Nat) : List Nat :=
  (List.range 25).map (fun i =>
    let x := i % 5
    let y := i / 5
    b.getD i 0 ^^^ ((b.getD ((x + 1) % 5 + 5 * y) 0 ^^^ U64MASK) &&& b.getD ((x + 2) % 5 + 5 * y) 0))

/-- One round of keccak-f: theta, rho, pi, chi, then iota on lane (0,0). -/
def keccakRound (s : List Nat) (rc : Nat) : List Nat :=
  match keccakChi (keccakRhoPi (keccakTheta s)) with
  | [] => []
  | a :: rest => (a ^^^ rc) :: rest

/-- The keccak-f[1600] permutation: 24 rounds. -/
def keccakP (s : List Nat) : List Nat :=
  keccakRoundConstants.foldl keccakRound s

/-- Interpret 8 bytes as a little-endian 64-bit lane. -/
def bytesToLane (bytes : List Nat) : Nat :=
  bytes.foldr (fun b acc => acc * 256 + b) 0

/-- The 8 little-endian bytes of a 64-bit lane. -/
def laneToBytes (lane : Nat) : List Nat :=
  (List.range 8).map (fun i => (lane >>> (8 * i)) &&& 255)

/-- Absorb one 136-byte block (17 lanes, rate of keccak-256) into the state. -/
def absorbBlock (state block : List Nat) : List Nat :=
  keccakP ((List.range 25).map (fun i =>
    state.getD i 0 ^^^ (if i < 17 then bytesToLane ((block.drop (8 * i)).take 8) else 0)))

/-- Absorb n successive 136-byte blocks of msg. -/
def absorbBlocks : Nat → List Nat → List Nat → List Nat
  | 0, state, _ => state
  | n + 1, state, msg => absorbBlocks n (absorbBlock state (msg.take 136)) (msg.drop 136)

/-- Multi-rate padding of the original keccak (domain bits 1, pad10*1):
first pad byte 0x01, last pad byte 0x80, 0x81 when a single byte is added. -/
def keccakPad (len : Nat) : List Nat :=
  let p := 136 - len % 136
  if p = 1 then [0x81] else 0x01 :: (List.replicate (p - 2) 0 ++ [0x80])

/-- Keccak-256 of a byte list, as the 32-byte digest. -/
def keccak256Bytes (msg : List Nat) : List Nat :=
  let padded := msg ++ keccakPad msg.length
  let st := absorbBlocks (padded.length / 136) (List.replicate 25 0) padded
  ((List.range 4).map (fun i => laneToBytes (st.getD i 0))).flatten

/-- Big-endian interpretation of a byte list as a Nat. -/
def natOfBytesBE (l : List Nat) : Nat :=
  l.foldl (fun acc b => acc * 256 + b) 0

/-- Keccak-256 of a byte list as a 256-bit number (a Solidity bytes32). -/
def keccak256 (msg : List Nat) : Nat :=
  natOfBytesBE (keccak256Bytes msg)

/-- ASCII bytes of a string (all strings hashed by this system are ASCII). -/
def asciiBytes (s : String) : List Nat := s.data.map (fun c => c.toNat)

/-! ## Off-chain EIP-712 hashing, from eip712_utils.ts -/

/-- Big-endian 32-byte encoding of a 256-bit word.  This is the encoding used
both by abi.encode for static 32-byte slots and by hexZeroPad / packed
bytes32 and uint256 values in solidityKeccak256. -/
def bytes32OfNat (n : Nat) : List Nat :=
  (List.range 32).map (fun i => n / 2 ^ (8 * (31 - i)) % 256)

/-- EIP712Domain record, from the TypeScript interface EIP712Domain. -/
structure EIP712Domain where
  name : String
  version : String
  chainId : Nat
  verifyingContract : String
deriving DecidableEq

/-- The ethers AddressZero constant. -/
def AddressZeroString : String := "0x0000000000000000000000000000000000000000"

/-- Default domain EXCHANGE_PROXY_EIP712_DOMAIN_DEFAULT of eip712_utils.ts. -/
def EXCHANGE_PROXY_EIP712_DOMAIN_DEFAULT : EIP712Domain :=
  { chainId := 1
    verifyingContract := AddressZeroString
    name := "Exchange"
    version := "1.0.0" }

/-- Value of a hexadecimal digit character, 0 for any other character. -/
def hexDigitVal (c : Char) : Nat :=
  if 48 ≤ c.toNat ∧ c.toNat ≤ 57 then c.toNat - 48
  else if 97 ≤ c.toNat ∧ c.toNat ≤ 102 then c.toNat - 87
  else if 65 ≤ c.toNat ∧ c.toNat ≤ 70 then c.toNat - 55
  else 0

def natOfHexCore : List Char → Nat → Nat
  | [], acc => acc
  | c :: rest, acc => natOfHexCore rest (16 * acc + hexDigitVal c)

/-- Numeric value of a 0x-prefixed hexadecimal string (an ethers address). -/
def natOfHex (s : String) : Nat :=
  let cs := s.data
  natOfHexCore (if cs.take 2 = ['0', 'x'] then cs.drop 2 else cs) 0

/-- The EXCHANGE_PROXY_DOMAIN_TYPEHASH constant of eip712_utils.ts: keccak of
the domain type declaration string, built by joining the four parameter
declarations with commas. -/
def EXCHANGE_PROXY_DOMAIN_TYPEHASH : Nat :=
  keccak256 (asciiBytes (String.join
    ["EIP712Domain(",
     String.intercalate ","
       ["string name", "string version", "uint256 chainId", "address verifyingContract"],
     ")"]))

/-- createExchangeProxyEIP712Domain of eip712_utils.ts.  The optional
arguments are spread over the default domain only when truthy: a chainId of 0
and an absent or empty verifyingContract string keep the defaults. -/
def createExchangeProxyEIP712Domain (chainId : Option Nat) (verifyingContract : Option String) :
    EIP712Domain :=
  { EXCHANGE_PROXY_EIP712_DOMAIN_DEFAULT with
    chainId :=
      match chainId with
      | some c => if c ≠ 0 then c else EXCHANGE_PROXY_EIP712_DOMAIN_DEFAULT.chainId
      | none => EXCHANGE_PROXY_EIP712_DOMAIN_DEFAULT.chainId
    verifyingContract :=
      match verifyingContract with
      | some s => if s ≠ "" then s else EXCHANGE_PROXY_EIP712_DOMAIN_DEFAULT.verifyingContract
      | none => EXCHANGE_PROXY_EIP712_DOMAIN_DEFAULT.verifyingContract }

/-- getExchangeProxyEIP712DomainHash of eip712_utils.ts: solidityKeccak256 of
the packed types [bytes32, bytes32, bytes32, uint256, bytes32] applied to the
domain typehash, the keccak of the name, the keccak of the version, the chain
id and the verifying contract left-padded to 32 bytes. -/
def getExchangeProxyEIP712DomainHash (chainId : Option Nat) (verifyingContract : Option String) :
    Nat :=
  let domain := createExchangeProxyEIP712Domain chainId verifyingContract
  keccak256 (bytes32OfNat EXCHANGE_PROXY_DOMAIN_TYPEHASH ++
    bytes32OfNat (keccak256 (asciiBytes domain.name)) ++
    bytes32OfNat (keccak256 (asciiBytes domain.version)) ++
    bytes32OfNat domain.chainId ++
    bytes32OfNat (natOfHex domain.verifyingContract))

/-- getExchangeProxyEIP712Hash of eip712_utils.ts: keccak of the 0x1901
prefix, the domain hash and the struct hash. -/
def getExchangeProxyEIP712Hash (structHash : Nat) (chainId : Option Nat)
    (verifyingContract : Option String) : Nat :=
  keccak256 ([0x19, 0x01] ++
    bytes32OfNat (getExchangeProxyEIP712DomainHash chainId verifyingContract) ++
    bytes32OfNat structHash)

/-! ## On-chain EIP-712 hashing, from contracts/protocol/FixinEIP712.sol -/

namespace FixinEIP712

/-- The domain type declaration string of FixinEIP712.sol, built from the
five adjacent Solidity string literals of the source. -/
def DOMAIN_TYPE_STRING : String :=
  "EIP712Domain(" ++ "string name," ++ "string version," ++ "uint256 chainId," ++
    "address verifyingContract" ++ ")"

/-- The immutable EIP712_DOMAIN_SEPARATOR computed by the constructor of
FixinEIP712 from the chain id of the deployment chain and the exchange
address: keccak of abi.encode of the domain typehash, keccak of the name
Exchange, keccak of the version 1.0.0, the chain id and the address. -/
def EIP712_DOMAIN_SEPARATOR (chainId exchangeAddress : Nat) : Nat :=
  keccak256 (bytes32OfNat (keccak256 (asciiBytes DOMAIN_TYPE_STRING)) ++
    bytes32OfNat (keccak256 (asciiBytes "Exchange")) ++
    bytes32OfNat (keccak256 (asciiBytes "1.0.0")) ++
    bytes32OfNat chainId ++
    bytes32OfNat exchangeAddress)

/-- The internal function _getEIP712Hash of FixinEIP712.sol: keccak of
abi.encodePacked of the two prefix bytes 0x19 0x01, the domain separator and
the struct hash. -/
def getEIP712Hash (structHash chainId exchangeAddress : Nat) : Nat :=
  keccak256 ([0x19, 0x01] ++
    bytes32OfNat (EIP712_DOMAIN_SEPARATOR chainId exchangeAddress) ++
    bytes32OfNat structHash)

end FixinEIP712

/-! ## Orders, storage and the settlement engine

From contracts/libs/LibNativeOrder.sol (struct layout recovered from the
TypeScript STRUCT_ABI declarations of src/orders.ts, whose field list and
order the Solidity structs must match for the hashes to agree) and
contracts/protocol/NativeOrdersSettlement.sol.  Addresses, tokens, hashes,
pools and signatures are Nat values; a zero address is the Nat 0. -/

def UINT128_MAX : Nat := 2 ^ 128 - 1

/-- Highest bit of a uint256, used to flag cancelled orders
(NativeOrdersCancellation.HIGH_BIT). -/
def HIGH_BIT : Nat := 2 ^ 255

/-- LibNativeOrder.LimitOrder. -/
structure LimitOrder where
  makerToken : Nat
  takerToken : Nat
  makerAmount : Nat
  takerAmount : Nat
  takerTokenFeeAmount : Nat
  maker : Nat
  taker : Nat
  sender : Nat
  feeRecipient : Nat
  pool : Nat
  expiry : Nat
  salt : Nat
deriving DecidableEq

/-- LibNativeOrder.RfqOrder. -/
structure RfqOrder where
  makerToken : Nat
  takerToken : Nat
  makerAmount : Nat
  takerAmount : Nat
  maker : Nat
  taker : Nat
  txOrigin : Nat
  pool : Nat
  expiry : Nat
  salt : Nat
deriving DecidableEq

/-- Order status enumeration, numeric values from the OrderStatus enum of
src/orders.ts (the uint8 codes carried by OrderNotFillableError). -/
inductive OrderStatus where
  | Invalid
  | Fillable
  | Filled
  | Cancelled
  | Expired
deriving DecidableEq

/-- Numeric uint8 code of a status. -/
def OrderStatus.code : OrderStatus → Nat
  | .Invalid => 0
  | .Fillable => 1
  | .Filled => 2
  | .Cancelled => 3
  | .Expired => 4

/-- LibNativeOrder.OrderInfo. -/
structure OrderInfo where
  status : OrderStatus
  orderHash : Nat
  takerTokenFilledAmount : Nat
deriving DecidableEq

/-- LibNativeOrdersStorage.Storage.  The field
orderHashToTakerTokenFilledAmount is the packed per-order fill record: low
255 bits cumulative filled amount, top bit the cancelled flag.  The field
originRegistry is the RFQ origin allowlist, keyed by the txOrigin named in
the order and then by the actual transaction origin.

Modelled from the spec: the field validOrderSigner embeds the predicate
isValidOrderSigner(maker, signer) of section 4.2 of the spec (maker-delegated
signers registered out-of-band); the registration code is not part of the
repository sources. -/
structure Storage where
  orderHashToTakerTokenFilledAmount : Nat → Nat
  originRegistry : Nat → Nat → Bool
  validOrderSigner : Nat → Nat → Bool

/-- Blockchain environment of one call. -/
structure Env where
  timestamp : Nat
  txOrigin : Nat
  thisAddr : Nat
deriving DecidableEq

/-- Rich errors of LibNativeOrdersRichErrors carried by a revert, plus the
Solidity 0.8 checked-arithmetic panic.  Every payload carries the order hash
and the offending actual and expected identities, as in the source. -/
inductive RevertError where
  | orderNotFillableError (orderHash statusCode : Nat)
  | orderNotFillableByTakerError (orderHash taker orderTaker : Nat)
  | orderNotFillableBySenderError (orderHash sender orderSender : Nat)
  | orderNotFillableByOriginError (orderHash txOrigin orderTxOrigin : Nat)
  | orderNotSignedByMakerError (orderHash signer maker : Nat)
  | onlyOrderMakerAllowed (orderHash sender maker : Nat)
  | arithmeticPanic
  | requireFailed
deriving DecidableEq

/-- Observable actions of a fill or cancel, in program order: a write of the
packed fill record and an external ERC-20 transfer call (safeTransfer and
safeTransferFrom are both embedded as a transfer of amount tokens from src to
dst).  Event emissions are not modelled; no claim refers to them. -/
inductive TraceAction where
  | storeWrite (orderHash word : Nat)
  | transfer (token src dst amount : Nat)
deriving DecidableEq

def TraceAction.isTransfer : TraceAction → Prop
  | .storeWrite _ _ => False
  | .transfer _ _ _ _ => True

instance : DecidablePred TraceAction.isTransfer := by
  intro a
  cases a <;> simp [TraceAction.isTransfer] <;> infer_instance

/-- Amount moved by a transfer action, 0 for a store write. -/
def TraceAction.amount : TraceAction → Nat
  | .storeWrite _ _ => 0
  | .transfer _ _ _ a => a

/-- Effect of one action on the packed-record store.  Transfers are external
calls and do not touch the store. -/
def applyActionStorage (stor : Storage) : TraceAction → Storage
  | .storeWrite h w =>
    { stor with orderHashToTakerTokenFilledAmount :=
        fun k => if k = h then w else stor.orderHashToTakerTokenFilledAmount k }
  | .transfer _ _ _ _ => stor

def applyActionsStorage (stor : Storage) (acts : List TraceAction) : Storage :=
  acts.foldl applyActionStorage stor

/-- Effect of one action on token balances (token, holder ↦ amount), the
canonical ERC-20 effect of the transfer calls issued by the engine. -/
def applyActionBalances (bal : Nat → Nat → Nat) : TraceAction → (Nat → Nat → Nat)
  | .storeWrite _ _ => bal
  | .transfer tok src dst amt => fun t a =>
    if t = tok then
      if a = src ∧ a ≠ dst then bal t a - amt
      else if a = dst ∧ a ≠ src then bal t a + amt
      else bal t a
    else bal t a

def applyActionsBalances (bal : Nat → Nat → Nat) (acts : List TraceAction) : Nat → Nat → Nat :=
  acts.foldl applyActionBalances bal

/-- Modelled from the spec: the order info resolver of section 4.4 of the
spec (the contract NativeOrdersInfo.sol is imported by the sources but is not
part of the repository).  Given the packed fill record word of the order, the
filled amount is the low 255 bits; the status is derived in priority order:
Invalid when the declared taker amount is zero, Cancelled when the top bit of
the word is set, Expired when the current time has reached the expiry,
Filled when the filled amount has reached the taker amount, otherwise
Fillable. -/
def getOrderInfoFromState (orderHash takerAmount expiry : Nat) (env : Env) (stor : Storage) :
    OrderInfo :=
  let word := stor.orderHashToTakerTokenFilledAmount orderHash
  let filled := word % HIGH_BIT
  { status :=
      if takerAmount = 0 then .Invalid
      else if word.testBit 255 then .Cancelled
      else if expiry ≤ env.timestamp then .Expired
      else if takerAmount ≤ filled then .Filled
      else .Fillable
    orderHash := orderHash
    takerTokenFilledAmount := filled }

section Engine

/- The order hash functions of NativeOrdersInfo (getLimitOrderHash and
getRfqOrderHash) and the ECDSA.recover function are left abstract: the
settlement claims are independent of the concrete hash values.  ecrecover
takes the hash and the signature (as an opaque Nat) and returns the recovered
signer. -/
variable (getLimitOrderHash : LimitOrder → Nat) (getRfqOrderHash : RfqOrder → Nat)
variable (ecrecover : Nat → Nat → Nat)

/-- getLimitOrderInfo of NativeOrdersInfo, combining the order hash with the
spec-modelled resolver. -/
def getLimitOrderInfo (env : Env) (stor : Storage) (order : LimitOrder) : OrderInfo :=
  getOrderInfoFromState (getLimitOrderHash order) order.takerAmount order.expiry env stor

/-- getRfqOrderInfo of NativeOrdersInfo. -/
def getRfqOrderInfo (env : Env) (stor : Storage) (order : RfqOrder) : OrderInfo :=
  getOrderInfoFromState (getRfqOrderHash order) order.takerAmount order.expiry env stor

/-- SettleOrderInfo, params of _settleOrder. -/
structure SettleOrderInfo where
  orderHash : Nat
  maker : Nat
  payer : Nat
  recipient : Nat
  makerToken : Nat
  takerToken : Nat
  makerAmount : Nat
  takerAmount : Nat
  takerTokenFillAmount : Nat
  takerTokenFilledAmount : Nat
deriving DecidableEq

/-- The private function _settleOrder of NativeOrdersSettlement.sol.  All
amounts are uint128 values, so every arithmetic operation is checked against
UINT128_MAX (Solidity 0.8 reverts on wrap and on division by zero).  Returns
the clamped taker fill amount, the proportional maker amount, and the actions
performed in program order: the fill-record write, then the taker-token
transfer from the payer to the maker, then the maker-token transfer from the
maker to the recipient. -/
def settleOrder (s : SettleOrderInfo) : Except RevertError (Nat × Nat × List TraceAction) :=
  if s.takerAmount < s.takerTokenFilledAmount then .error .arithmeticPanic
  else
    let takerTokenFilledAmount :=
      if s.takerTokenFillAmount < s.takerAmount - s.takerTokenFilledAmount
      then s.takerTokenFillAmount
      else s.takerAmount - s.takerTokenFilledAmount
    if UINT128_MAX < takerTokenFilledAmount * s.makerAmount then .error .arithmeticPanic
    else if s.takerAmount = 0 then .error .arithmeticPanic
    else
      let makerTokenFilledAmount := takerTokenFilledAmount * s.makerAmount / s.takerAmount
      if takerTokenFilledAmount = 0 ∨ makerTokenFilledAmount = 0 then .ok (0, 0, [])
      else if UINT128_MAX < s.takerTokenFilledAmount + takerTokenFilledAmount then
        .error .arithmeticPanic
      else
        .ok (takerTokenFilledAmount, makerTokenFilledAmount,
          [TraceAction.storeWrite s.orderHash (s.takerTokenFilledAmount + takerTokenFilledAmount),
           TraceAction.transfer s.takerToken s.payer s.maker takerTokenFilledAmount,
           TraceAction.transfer s.makerToken s.maker s.recipient makerTokenFilledAmount])

/-- FillNativeOrderResults.  The protocol-fee collection of the original
source is commented out in this repository, so ethProtocolFeePaid is always
zero. -/
structure FillNativeOrderResults where
  ethProtocolFeePaid : Nat
  takerTokenFilledAmount : Nat
  makerTokenFilledAmount : Nat
  takerTokenFeeFilledAmount : Nat
deriving DecidableEq

/-- FillLimitOrderPrivateParams. -/
structure FillLimitOrderPrivateParams where
  order : LimitOrder
  signature : Nat
  takerTokenFillAmount : Nat
  taker : Nat
  sender : Nat
deriving DecidableEq

/-- FillRfqOrderPrivateParams. -/
structure FillRfqOrderPrivateParams where
  order : RfqOrder
  signature : Nat
  takerTokenFillAmount : Nat
  taker : Nat
  useSelfBalance : Bool
  recipient : Nat
deriving DecidableEq

/-- SettleOrderInfo built by _fillLimitOrderPrivate. -/
def limitSettleInfo (p : FillLimitOrderPrivateParams) (info : OrderInfo) : SettleOrderInfo :=
  { orderHash := info.orderHash
    maker := p.order.maker
    payer := p.taker
    recipient := p.taker
    makerToken := p.order.makerToken
    takerToken := p.order.takerToken
    makerAmount := p.order.makerAmount
    takerAmount := p.order.takerAmount
    takerTokenFillAmount := p.takerTokenFillAmount
    takerTokenFilledAmount := info.takerTokenFilledAmount }

/-- The private function _fillLimitOrderPrivate of NativeOrdersSettlement.sol.
Checks, in program order: status Fillable, taker restriction, sender
restriction, signature; then settles, then pays the taker-token fee to the
fee recipient when a fee is declared.  A revert (Except.error) leaves the
caller with the pre-call storage. -/
def fillLimitOrderPrivate (env : Env) (stor : Storage) (p : FillLimitOrderPrivateParams) :
    Except RevertError (FillNativeOrderResults × Storage × List TraceAction) :=
  let info := getLimitOrderInfo getLimitOrderHash env stor p.order
  if info.status ≠ .Fillable then
    .error (.orderNotFillableError info.orderHash info.status.code)
  else if p.order.taker ≠ 0 ∧ p.order.taker ≠ p.taker then
    .error (.orderNotFillableByTakerError info.orderHash p.taker p.order.taker)
  else if p.order.sender ≠ 0 ∧ p.order.sender ≠ p.sender then
    .error (.orderNotFillableBySenderError info.orderHash p.sender p.order.sender)
  else
    let signer := ecrecover info.orderHash p.signature
    if signer ≠ p.order.maker ∧ ¬ stor.validOrderSigner p.order.maker signer then
      .error (.orderNotSignedByMakerError info.orderHash signer p.order.maker)
    else
      match settleOrder (limitSettleInfo p info) with
      | .error e => .error e
      | .ok (takerFilled, makerFilled, settleActs) =>
        if 0 < p.order.takerTokenFeeAmount then
          if UINT128_MAX < takerFilled * p.order.takerTokenFeeAmount then
            .error .arithmeticPanic
          else if p.order.takerAmount = 0 then .error .arithmeticPanic
          else
            let feeFilled := takerFilled * p.order.takerTokenFeeAmount / p.order.takerAmount
            let acts := settleActs ++
              [TraceAction.transfer p.order.takerToken p.taker p.order.feeRecipient feeFilled]
            .ok ({ ethProtocolFeePaid := 0
                   takerTokenFilledAmount := takerFilled
                   makerTokenFilledAmount := makerFilled
                   takerTokenFeeFilledAmount := feeFilled },
                 applyActionsStorage stor acts, acts)
        else
          .ok ({ ethProtocolFeePaid := 0
                 takerTokenFilledAmount := takerFilled
                 makerTokenFilledAmount := makerFilled
                 takerTokenFeeFilledAmount := 0 },
               applyActionsStorage stor settleActs, settleActs)

/-- SettleOrderInfo built by _fillRfqOrderPrivate: the payer is the exchange
itself when useSelfBalance is set, and the maker tokens go to the designated
recipient. -/
def rfqSettleInfo (env : Env) (p : FillRfqOrderPrivateParams) (info : OrderInfo) :
    SettleOrderInfo :=
  { orderHash := info.orderHash
    maker := p.order.maker
    payer := if p.useSelfBalance then env.thisAddr else p.taker
    recipient := p.recipient
    makerToken := p.order.makerToken
    takerToken := p.order.takerToken
    makerAmount := p.order.makerAmount
    takerAmount := p.order.takerAmount
    takerTokenFillAmount := p.takerTokenFillAmount
    takerTokenFilledAmount := info.takerTokenFilledAmount }

/-- The private function _fillRfqOrderPrivate of NativeOrdersSettlement.sol.
Checks, in program order: status Fillable, transaction-origin restriction
(the allowlist originRegistry admits registered delegates), taker
restriction, signature; then settles.  RFQ orders have no taker-token fee. -/
def fillRfqOrderPrivate (env : Env) (stor : Storage) (p : FillRfqOrderPrivateParams) :
    Except RevertError (FillNativeOrderResults × Storage × List TraceAction) :=
  let info := getRfqOrderInfo getRfqOrderHash env stor p.order
  if info.status ≠ .Fillable then
    .error (.orderNotFillableError info.orderHash info.status.code)
  else if p.order.txOrigin ≠ env.txOrigin ∧ ¬ stor.originRegistry p.order.txOrigin env.txOrigin then
    .error (.orderNotFillableByOriginError info.orderHash env.txOrigin p.order.txOrigin)
  else if p.order.taker ≠ 0 ∧ p.order.taker ≠ p.taker then
    .error (.orderNotFillableByTakerError info.orderHash p.taker p.order.taker)
  else
    let signer := ecrecover info.orderHash p.signature
    if signer ≠ p.order.maker ∧ ¬ stor.validOrderSigner p.order.maker signer then
      .error (.orderNotSignedByMakerError info.orderHash signer p.order.maker)
    else
      match settleOrder (rfqSettleInfo env p info) with
      | .error e => .error e
      | .ok (takerFilled, makerFilled, settleActs) =>
        .ok ({ ethProtocolFeePaid := 0
               takerTokenFilledAmount := takerFilled
               makerTokenFilledAmount := makerFilled
               takerTokenFeeFilledAmount := 0 },
             applyActionsStorage stor settleActs, settleActs)

/-- The private function _cancelOrderHash of NativeOrdersCancellation.sol:
set the high bit on the raw taker token fill amount word. -/
def cancelOrderHash (stor : Storage) (orderHash : Nat) : Storage :=
  { stor with orderHashToTakerTokenFilledAmount :=
      fun k => if k = orderHash then stor.orderHashToTakerTokenFilledAmount k ||| HIGH_BIT
               else stor.orderHashToTakerTokenFilledAmount k }

/-- cancelLimitOrder of NativeOrdersCancellation.sol.  The caller must be the
maker or a valid order signer. -/
def cancelLimitOrder (msgSender : Nat) (stor : Storage) (order : LimitOrder) :
    Except RevertError Storage :=
  let orderHash := getLimitOrderHash order
  if msgSender ≠ order.maker ∧ ¬ stor.validOrderSigner order.maker msgSender then
    .error (.onlyOrderMakerAllowed orderHash msgSender order.maker)
  else
    .ok (cancelOrderHash stor orderHash)

/-- cancelRfqOrder of NativeOrdersCancellation.sol. -/
def cancelRfqOrder (msgSender : Nat) (stor : Storage) (order : RfqOrder) :
    Except RevertError Storage :=
  let orderHash := getRfqOrderHash order
  if msgSender ≠ order.maker ∧ ¬ stor.validOrderSigner order.maker msgSender then
    .error (.onlyOrderMakerAllowed orderHash msgSender order.maker)
  else
    .ok (cancelOrderHash stor orderHash)

/-- batchCancelLimitOrders of NativeOrdersCancellation.sol: cancelLimitOrder
applied to each order in sequence; a revert anywhere aborts the whole batch
(Except.error discards every intermediate state). -/
def batchCancelLimitOrders (msgSender : Nat) (stor : Storage) :
    List LimitOrder → Except RevertError Storage
  | [] => .ok stor
  | order :: rest =>
    match cancelLimitOrder getLimitOrderHash msgSender stor order with
    | .error e => .error e
    | .ok stor2 => batchCancelLimitOrders msgSender stor2 rest

/-- batchCancelRfqOrders of NativeOrdersCancellation.sol. -/
def batchCancelRfqOrders (msgSender : Nat) (stor : Storage) :
    List RfqOrder → Except RevertError Storage
  | [] => .ok stor
  | order :: rest =>
    match cancelRfqOrder getRfqOrderHash msgSender stor order with
    | .error e => .error e
    | .ok stor2 => batchCancelRfqOrders msgSender stor2 rest

/-- registerAllowedRfqOrigins of NativeOrdersSettlement.sol (the msg.sender
must equal tx.origin; the caller registers origins under its own key). -/
def registerAllowedRfqOrigins (msgSender : Nat) (env : Env) (stor : Storage)
    (origins : List Nat) (allowed : Bool) : Except RevertError Storage :=
  if msgSender ≠ env.txOrigin then .error .requireFailed
  else
    .ok { stor with originRegistry :=
      fun m o => if m = msgSender ∧ origins.contains o then allowed else stor.originRegistry m o }

end Engine

/-! ## Helper lemmas about the engine -/

/-- The clamp of step 4 of the settlement: the requested amount capped at the
remaining fillable amount. -/
def clampFill (s : SettleOrderInfo) : Nat :=
  min s.takerTokenFillAmount (s.takerAmount - s.takerTokenFilledAmount)

/-- One entry of a sequence of fill attempts against a fixed order: the
caller-controlled inputs of one fillLimitOrder call. -/
structure FillAttempt where
  env : Env
  signature : Nat
  takerTokenFillAmount : Nat
  taker : Nat
  sender : Nat
deriving DecidableEq

/-- Run a sequence of fill attempts against one order; a reverted attempt
leaves the storage unchanged (EVM transaction semantics) and the sequence
continues with the next attempt. -/
def runLimitFills (getLimitOrderHash : LimitOrder → Nat) (ecrecover : Nat → Nat → Nat)
    (order : LimitOrder) : Storage → List FillAttempt → Storage
  | stor, [] => stor
  | stor, a :: rest =>
    match fillLimitOrderPrivate getLimitOrderHash ecrecover a.env stor
        { order := order, signature := a.signature,
          takerTokenFillAmount := a.takerTokenFillAmount, taker := a.taker,
          sender := a.sender } with
    | .ok (_, stor2, _) => runLimitFills getLimitOrderHash ecrecover order stor2 rest
    | .error _ => runLimitFills getLimitOrderHash ecrecover order stor rest

/-- One entry of a sequence of fill attempts against a fixed RFQ order: the
caller-controlled inputs of one fillRfqOrder call. -/
structure RfqFillAttempt where
  env : Env
  signature : Nat
  takerTokenFillAmount : Nat
  taker : Nat
  useSelfBalance : Bool
  recipient : Nat
deriving DecidableEq

/-- Run a sequence of fill attempts against one RFQ order; a reverted attempt
leaves the storage unchanged (EVM transaction semantics) and the sequence
continues with the next attempt. -/
def runRfqFills (getRfqOrderHash : RfqOrder → Nat) (ecrecover : Nat → Nat → Nat)
    (order : RfqOrder) : Storage → List RfqFillAttempt → Storage
  | stor, [] => stor
  | stor, a :: rest =>
    match fillRfqOrderPrivate getRfqOrderHash ecrecover a.env stor
        { order := order, signature := a.signature,
          takerTokenFillAmount := a.takerTokenFillAmount, taker := a.taker,
          useSelfBalance := a.useSelfBalance, recipient := a.recipient } with
    | .ok (_, stor2, _) => runRfqFills getRfqOrderHash ecrecover order stor2 rest
    | .error _ => runRfqFills getRfqOrderHash ecrecover order stor rest

/-! ## Concrete inputs used by witnesses and counterexamples -/

/-- A fixed abstract order-hash oracle for limit orders. -/
def wHashL : LimitOrder → Nat := fun _ => 7

/-- A fixed abstract order-hash oracle for RFQ orders. -/
def wHashR : RfqOrder → Nat := fun _ => 9

/-- A signature recovery oracle that always recovers the maker address 21. -/
def wRecover : Nat → Nat → Nat := fun _ _ => 21

/-- Initial storage: no fills, no cancels, empty registries. -/
def emptyStorage : Storage :=
  { orderHashToTakerTokenFilledAmount := fun _ => 0
    originRegistry := fun _ _ => false
    validOrderSigner := fun _ _ => false }

def wEnv : Env := { timestamp := 500, txOrigin := 31, thisAddr := 99 }

def wLimitOrder : LimitOrder :=
  { makerToken := 101, takerToken := 102, makerAmount := 100, takerAmount := 50,
    takerTokenFeeAmount := 10, maker := 21, taker := 0, sender := 0, feeRecipient := 103,
    pool := 0, expiry := 1000, salt := 5 }

def wParams : FillLimitOrderPrivateParams :=
  { order := wLimitOrder, signature := 1, takerTokenFillAmount := 25, taker := 41, sender := 41 }

def wRes : FillNativeOrderResults :=
  { ethProtocolFeePaid := 0, takerTokenFilledAmount := 25, makerTokenFilledAmount := 50,
    takerTokenFeeFilledAmount := 5 }

def wTrace : List TraceAction :=
  [.storeWrite 7 25, .transfer 102 41 21 25, .transfer 101 21 41 50, .transfer 102 41 103 5]

def wAttempt : FillAttempt :=
  { env := wEnv, signature := 1, takerTokenFillAmount := 25, taker := 41, sender := 41 }

def wSettle : SettleOrderInfo :=
  { orderHash := 7, maker := 21, payer := 41, recipient := 41, makerToken := 101,
    takerToken := 102, makerAmount := 2, takerAmount := 2, takerTokenFillAmount := 1,
    takerTokenFilledAmount := 0 }

def wSettleActs : List TraceAction :=
  [.storeWrite 7 1, .transfer 102 41 21 1, .transfer 101 21 41 1]

def wRfqOrder : RfqOrder :=
  { makerToken := 101, takerToken := 102, makerAmount := 100, takerAmount := 50, maker := 21,
    taker := 0, txOrigin := 31, pool := 0, expiry := 1000, salt := 8 }

def wRfqParams : FillRfqOrderPrivateParams :=
  { order := wRfqOrder, signature := 1, takerTokenFillAmount := 25, taker := 41,
    useSelfBalance := false, recipient := 41 }

def wRfqRes : FillNativeOrderResults :=
  { ethProtocolFeePaid := 0, takerTokenFilledAmount := 25, makerTokenFilledAmount := 50,
    takerTokenFeeFilledAmount := 0 }

def wRfqTrace : List TraceAction :=
  [.storeWrite 9 25, .transfer 102 41 21 25, .transfer 101 21 41 50]

def wRfqAttempt : RfqFillAttempt :=
  { env := wEnv, signature := 1, takerTokenFillAmount := 25, taker := 41,
    useSelfBalance := false, recipient := 41 }

def wSmallOrder : LimitOrder :=
  { makerToken := 111, takerToken := 112, makerAmount := 1, takerAmount := 9,
    takerTokenFeeAmount := 3, maker := 21, taker := 0, sender := 0, feeRecipient := 113,
    pool := 0, expiry := 1000, salt := 6 }

def wNoopParams : FillLimitOrderPrivateParams :=
  { order := wSmallOrder, signature := 1, takerTokenFillAmount := 4, taker := 41, sender := 41 }

def wNoopRes : FillNativeOrderResults :=
  { ethProtocolFeePaid := 0, takerTokenFilledAmount := 0, makerTokenFilledAmount := 0,
    takerTokenFeeFilledAmount := 0 }

def wNoopTrace : List TraceAction := [.transfer 112 41 113 0]

def c3Order : LimitOrder :=
  { makerToken := 121, takerToken := 122, makerAmount := 2 ^ 127, takerAmount := 2,
    takerTokenFeeAmount := 0, maker := 21, taker := 0, sender := 0, feeRecipient := 0,
    pool := 0, expiry := 1000, salt := 7 }

/-- The operations of the two engines (fills, cancels, origin registration);
each is applied with EVM transaction semantics: a revert leaves the state
unchanged. -/
inductive EngineOp where
  | fillLimit (env : Env) (p : FillLimitOrderPrivateParams)
  | fillRfq (env : Env) (p : FillRfqOrderPrivateParams)
  | cancelLimit (msgSender : Nat) (order : LimitOrder)
  | cancelRfq (msgSender : Nat) (order : RfqOrder)
  | registerOrigins (msgSender : Nat) (env : Env) (origins : List Nat) (allowed : Bool)

section Ops

variable (getLimitOrderHash : LimitOrder → Nat) (getRfqOrderHash : RfqOrder → Nat)
variable (ecrecover : Nat → Nat → Nat)

def applyEngineOp (stor : Storage) : EngineOp → Storage
  | .fillLimit env p =>
    match fillLimitOrderPrivate getLimitOrderHash ecrecover env stor p with
    | .ok (_, stor2, _) => stor2
    | .error _ => stor
  | .fillRfq env p =>
    match fillRfqOrderPrivate getRfqOrderHash ecrecover env stor p with
    | .ok (_, stor2, _) => stor2
    | .error _ => stor
  | .cancelLimit msgSender order =>
    match cancelLimitOrder getLimitOrderHash msgSender stor order with
    | .ok stor2 => stor2
    | .error _ => stor
  | .cancelRfq msgSender order =>
    match cancelRfqOrder getRfqOrderHash msgSender stor order with
    | .ok stor2 => stor2
    | .error _ => stor
  | .registerOrigins msgSender env origins allowed =>
    match registerAllowedRfqOrigins msgSender env stor origins allowed with
    | .ok stor2 => stor2
    | .error _ => stor

def applyEngineOps (stor : Storage) : List EngineOp → Storage
  | [] => stor
  | op :: rest =>
    applyEngineOps (applyEngineOp getLimitOrderHash getRfqOrderHash ecrecover stor op) rest

end Ops

def wExpiredOrder : LimitOrder := { wLimitOrder with expiry := 100 }

def wTakerRestrictedOrder : LimitOrder := { wLimitOrder with taker := 42 }

def wForeignMakerOrder : LimitOrder := { wLimitOrder with maker := 22 }

def wOriginRfqOrder : RfqOrder := { wRfqOrder with txOrigin := 32 }

/-! ## Theorems -/
/-- Sanity check of the keccak-256 embedding against the well-known digest of
the empty input. -/
theorem keccak256_empty_input_vector :
    keccak256 [] = 0xc5d2460186f7233c927e7db2dcc703c0e500b653ca82273b7bfad8045d85a470 := by
  decide

/-- The off-chain and on-chain domain type declaration strings are the same
string. -/
theorem domainTypeString_agree :
    String.join
      ["EIP712Domain(",
       String.intercalate ","
         ["string name", "string version", "uint256 chainId", "address verifyingContract"],
       ")"] = FixinEIP712.DOMAIN_TYPE_STRING := by
  decide

theorem applyActionsStorage_append (stor : Storage) (acts1 acts2 : List TraceAction) :
    applyActionsStorage stor (acts1 ++ acts2) =
      applyActionsStorage (applyActionsStorage stor acts1) acts2 := by
  simp [applyActionsStorage, List.foldl_append]

theorem applyActionsStorage_transfers (stor : Storage) (acts : List TraceAction)
    (h : ∀ a ∈ acts, a.isTransfer) : applyActionsStorage stor acts = stor := by
  induction acts with
  | nil => rfl
  | cons a rest ih =>
    cases a with
    | storeWrite hh ww =>
      have hmem := h _ (List.mem_cons_self _ _)
      simp [TraceAction.isTransfer] at hmem
    | transfer tok src dst amt =>
      simpa [applyActionsStorage, applyActionStorage] using
        ih (fun a ha => h a (List.mem_cons_of_mem _ ha))

/-- Restatement of _settleOrder with the clamp named, used to invert calls. -/
theorem settleOrder_eq (s : SettleOrderInfo) :
    settleOrder s =
      if s.takerAmount < s.takerTokenFilledAmount then .error .arithmeticPanic
      else if UINT128_MAX < clampFill s * s.makerAmount then .error .arithmeticPanic
      else if s.takerAmount = 0 then .error .arithmeticPanic
      else if clampFill s = 0 ∨ clampFill s * s.makerAmount / s.takerAmount = 0 then .ok (0, 0, [])
      else if UINT128_MAX < s.takerTokenFilledAmount + clampFill s then
        .error .arithmeticPanic
      else
        .ok (clampFill s, clampFill s * s.makerAmount / s.takerAmount,
          [.storeWrite s.orderHash (s.takerTokenFilledAmount + clampFill s),
           .transfer s.takerToken s.payer s.maker (clampFill s),
           .transfer s.makerToken s.maker s.recipient
             (clampFill s * s.makerAmount / s.takerAmount)]) := by
  unfold settleOrder
  split
  · rfl
  · have hclamp : (if s.takerTokenFillAmount < s.takerAmount - s.takerTokenFilledAmount
        then s.takerTokenFillAmount else s.takerAmount - s.takerTokenFilledAmount) =
        clampFill s := by
      unfold clampFill
      split <;> omega
    rw [hclamp]

/-- Full characterization of a successful _settleOrder call. -/
theorem settleOrder_ok_inv {s : SettleOrderInfo} {t m : Nat} {acts : List TraceAction}
    (h : settleOrder s = .ok (t, m, acts)) :
    s.takerTokenFilledAmount ≤ s.takerAmount ∧ 0 < s.takerAmount ∧
    m = t * s.makerAmount / s.takerAmount ∧
    ((t = 0 ∧ m = 0 ∧ acts = []) ∨
     (t = clampFill s ∧ 0 < t ∧ 0 < m ∧
      acts = [.storeWrite s.orderHash (s.takerTokenFilledAmount + t),
              .transfer s.takerToken s.payer s.maker t,
              .transfer s.makerToken s.maker s.recipient m])) := by
  rw [settleOrder_eq] at h
  split_ifs at h with h1 h2 h3 h4 h5
  · simp only [Except.ok.injEq, Prod.mk.injEq] at h
    obtain ⟨ht, hm, hacts⟩ := h
    refine ⟨by omega, by omega, ?_, .inl ⟨ht.symm, hm.symm, hacts.symm⟩⟩
    subst ht hm
    simp
  · push_neg at h4
    obtain ⟨hc0, hm0⟩ := h4
    simp only [Except.ok.injEq, Prod.mk.injEq] at h
    obtain ⟨ht, hm, hacts⟩ := h
    refine ⟨by omega, by omega, by rw [← hm, ← ht], .inr ⟨ht.symm, ?_, ?_, ?_⟩⟩
    · rw [← ht]
      exact Nat.pos_of_ne_zero hc0
    · rw [← hm]
      exact Nat.pos_of_ne_zero hm0
    · rw [← hacts, ← ht, ← hm]

/-- Full characterization of a successful _fillLimitOrderPrivate call. -/
theorem fillLimitOrderPrivate_ok_inv
    {getLimitOrderHash : LimitOrder → Nat} {ecrecover : Nat → Nat → Nat}
    {env : Env} {stor : Storage} {p : FillLimitOrderPrivateParams}
    {res : FillNativeOrderResults} {stor2 : Storage} {trace : List TraceAction}
    (h : fillLimitOrderPrivate getLimitOrderHash ecrecover env stor p =
      .ok (res, stor2, trace)) :
    (getLimitOrderInfo getLimitOrderHash env stor p.order).status = .Fillable ∧
    res.ethProtocolFeePaid = 0 ∧
    ∃ settleActs,
      settleOrder (limitSettleInfo p (getLimitOrderInfo getLimitOrderHash env stor p.order)) =
        .ok (res.takerTokenFilledAmount, res.makerTokenFilledAmount, settleActs) ∧
      res.takerTokenFeeFilledAmount =
        (if 0 < p.order.takerTokenFeeAmount
         then res.takerTokenFilledAmount * p.order.takerTokenFeeAmount / p.order.takerAmount
         else 0) ∧
      trace = settleActs ++
        (if 0 < p.order.takerTokenFeeAmount
         then [TraceAction.transfer p.order.takerToken p.taker p.order.feeRecipient
                 res.takerTokenFeeFilledAmount]
         else []) ∧
      stor2 = applyActionsStorage stor trace := by
  simp only [fillLimitOrderPrivate] at h
  by_cases hstatus : (getLimitOrderInfo getLimitOrderHash env stor p.order).status ≠ .Fillable
  · rw [if_pos hstatus] at h
    exact absurd h (by simp)
  rw [if_neg hstatus] at h
  rw [not_ne_iff] at hstatus
  refine ⟨hstatus, ?_⟩
  by_cases htaker : p.order.taker ≠ 0 ∧ p.order.taker ≠ p.taker
  · rw [if_pos htaker] at h
    exact absurd h (by simp)
  rw [if_neg htaker] at h
  by_cases hsender : p.order.sender ≠ 0 ∧ p.order.sender ≠ p.sender
  · rw [if_pos hsender] at h
    exact absurd h (by simp)
  rw [if_neg hsender] at h
  by_cases hsigner : ecrecover (getLimitOrderInfo getLimitOrderHash env stor p.order).orderHash
      p.signature ≠ p.order.maker ∧
      ¬ stor.validOrderSigner p.order.maker
        (ecrecover (getLimitOrderInfo getLimitOrderHash env stor p.order).orderHash p.signature)
  · rw [if_pos hsigner] at h
    exact absurd h (by simp)
  rw [if_neg hsigner] at h
  rcases hsettle : settleOrder
      (limitSettleInfo p (getLimitOrderInfo getLimitOrderHash env stor p.order)) with e | v
  · simp only [hsettle] at h
    exact absurd h (by simp)
  obtain ⟨takerFilled, makerFilled, settleActs⟩ := v
  simp only [hsettle] at h
  by_cases hfee : 0 < p.order.takerTokenFeeAmount
  · rw [if_pos hfee] at h
    by_cases hover : UINT128_MAX < takerFilled * p.order.takerTokenFeeAmount
    · rw [if_pos hover] at h
      exact absurd h (by simp)
    rw [if_neg hover] at h
    by_cases hzero : p.order.takerAmount = 0
    · rw [if_pos hzero] at h
      exact absurd h (by simp)
    rw [if_neg hzero] at h
    simp only [Except.ok.injEq, Prod.mk.injEq] at h
    obtain ⟨hres, hstor, htrace⟩ := h
    subst hres
    subst htrace
    refine ⟨rfl, ⟨settleActs, ?_, ?_, ?_, ?_⟩⟩
    · rfl
    · simp [hfee]
    · simp [hfee]
    · exact hstor.symm
  · rw [if_neg hfee] at h
    simp only [Except.ok.injEq, Prod.mk.injEq] at h
    obtain ⟨hres, hstor, htrace⟩ := h
    subst hres
    subst htrace
    refine ⟨rfl, ⟨settleActs, ?_, ?_, ?_, ?_⟩⟩
    · rfl
    · simp [hfee]
    · simp [hfee]
    · exact hstor.symm

/-- Full characterization of a successful _fillRfqOrderPrivate call. -/
theorem fillRfqOrderPrivate_ok_inv
    {getRfqOrderHash : RfqOrder → Nat} {ecrecover : Nat → Nat → Nat}
    {env : Env} {stor : Storage} {p : FillRfqOrderPrivateParams}
    {res : FillNativeOrderResults} {stor2 : Storage} {trace : List TraceAction}
    (h : fillRfqOrderPrivate getRfqOrderHash ecrecover env stor p = .ok (res, stor2, trace)) :
    (getRfqOrderInfo getRfqOrderHash env stor p.order).status = .Fillable ∧
    res.ethProtocolFeePaid = 0 ∧ res.takerTokenFeeFilledAmount = 0 ∧
    settleOrder (rfqSettleInfo env p (getRfqOrderInfo getRfqOrderHash env stor p.order)) =
      .ok (res.takerTokenFilledAmount, res.makerTokenFilledAmount, trace) ∧
    stor2 = applyActionsStorage stor trace := by
  simp only [fillRfqOrderPrivate] at h
  by_cases hstatus : (getRfqOrderInfo getRfqOrderHash env stor p.order).status ≠ .Fillable
  · rw [if_pos hstatus] at h
    exact absurd h (by simp)
  rw [if_neg hstatus] at h
  rw [not_ne_iff] at hstatus
  refine ⟨hstatus, ?_⟩
  by_cases horigin : p.order.txOrigin ≠ env.txOrigin ∧
      ¬ stor.originRegistry p.order.txOrigin env.txOrigin
  · rw [if_pos horigin] at h
    exact absurd h (by simp)
  rw [if_neg horigin] at h
  by_cases htaker : p.order.taker ≠ 0 ∧ p.order.taker ≠ p.taker
  · rw [if_pos htaker] at h
    exact absurd h (by simp)
  rw [if_neg htaker] at h
  by_cases hsigner : ecrecover (getRfqOrderInfo getRfqOrderHash env stor p.order).orderHash
      p.signature ≠ p.order.maker ∧
      ¬ stor.validOrderSigner p.order.maker
        (ecrecover (getRfqOrderInfo getRfqOrderHash env stor p.order).orderHash p.signature)
  · rw [if_pos hsigner] at h
    exact absurd h (by simp)
  rw [if_neg hsigner] at h
  rcases hsettle : settleOrder
      (rfqSettleInfo env p (getRfqOrderInfo getRfqOrderHash env stor p.order)) with e | v
  · simp only [hsettle] at h
    exact absurd h (by simp)
  obtain ⟨takerFilled, makerFilled, settleActs⟩ := v
  simp only [hsettle] at h
  simp only [Except.ok.injEq, Prod.mk.injEq] at h
  obtain ⟨hres, hstor, htrace⟩ := h
  subst hres
  subst htrace
  exact ⟨rfl, rfl, rfl, hstor.symm⟩

/-- Lookup in the store after a store write followed by transfer calls. -/
theorem applyActionsStorage_write_head (stor : Storage) (K W : Nat) (rest : List TraceAction)
    (hrest : ∀ a ∈ rest, a.isTransfer) (k : Nat) :
    (applyActionsStorage stor
        (.storeWrite K W :: rest)).orderHashToTakerTokenFilledAmount k =
      if k = K then W else stor.orderHashToTakerTokenFilledAmount k := by
  have hstep : applyActionsStorage stor (.storeWrite K W :: rest) =
      applyActionStorage stor (.storeWrite K W) := by
    show applyActionsStorage (applyActionStorage stor (.storeWrite K W)) rest = _
    exact applyActionsStorage_transfers _ _ hrest
  rw [hstep]
  rfl

/-- Storage word bound is preserved by one limit fill: when the declared
taker amount fits uint128 and the stored word is at most the taker amount,
the word after a successful fill is still at most the taker amount. -/
theorem fillLimitOrderPrivate_word_le
    {getLimitOrderHash : LimitOrder → Nat} {ecrecover : Nat → Nat → Nat}
    {env : Env} {stor : Storage} {p : FillLimitOrderPrivateParams}
    {res : FillNativeOrderResults} {stor2 : Storage} {trace : List TraceAction}
    (hw : stor.orderHashToTakerTokenFilledAmount (getLimitOrderHash p.order) ≤
      p.order.takerAmount)
    (h : fillLimitOrderPrivate getLimitOrderHash ecrecover env stor p = .ok (res, stor2, trace)) :
    stor2.orderHashToTakerTokenFilledAmount (getLimitOrderHash p.order) ≤
      p.order.takerAmount := by
  obtain ⟨hstatus, -, acts, hsettle, hfeeEq, htrace, hstor⟩ := fillLimitOrderPrivate_ok_inv h
  obtain ⟨hFT, hTpos, hmEq, hcase⟩ := settleOrder_ok_inv hsettle
  subst hstor
  rw [htrace]
  have hfeeTransfers : ∀ a ∈ (if 0 < p.order.takerTokenFeeAmount
      then [TraceAction.transfer p.order.takerToken p.taker p.order.feeRecipient
              res.takerTokenFeeFilledAmount] else []), a.isTransfer := by
    intro a ha
    split at ha
    · simp only [List.mem_singleton] at ha
      subst ha
      trivial
    · simp at ha
  rcases hcase with ⟨ht0, hm0, hacts⟩ | ⟨htc, htpos, hmpos, hacts⟩
  · subst hacts
    rw [List.nil_append, applyActionsStorage_transfers _ _ hfeeTransfers]
    exact hw
  · subst hacts
    rw [List.cons_append]
    rw [applyActionsStorage_write_head _ _ _ _ (by
      intro a ha
      rw [List.mem_append] at ha
      rcases ha with ha | ha
      · simp only [List.mem_cons, List.mem_singleton] at ha
        rcases ha with rfl | rfl | ha
        · trivial
        · trivial
        · simp at ha
      · exact hfeeTransfers a ha)]
    rw [if_pos (show getLimitOrderHash p.order = (limitSettleInfo p (getLimitOrderInfo
        getLimitOrderHash env stor p.order)).orderHash from rfl)]
    have hF : (limitSettleInfo p (getLimitOrderInfo getLimitOrderHash env stor
        p.order)).takerTokenFilledAmount =
        stor.orderHashToTakerTokenFilledAmount (getLimitOrderHash p.order) % HIGH_BIT := rfl
    have hTA : (limitSettleInfo p (getLimitOrderInfo getLimitOrderHash env stor
        p.order)).takerAmount = p.order.takerAmount := rfl
    have hclampLe : clampFill (limitSettleInfo p (getLimitOrderInfo getLimitOrderHash env stor
        p.order)) ≤ (limitSettleInfo p (getLimitOrderInfo getLimitOrderHash env stor
        p.order)).takerAmount - (limitSettleInfo p (getLimitOrderInfo getLimitOrderHash env stor
        p.order)).takerTokenFilledAmount := min_le_right _ _
    rw [hF, hTA] at hclampLe hFT
    rw [hF]
    rw [htc]
    omega

/-- Storage word bound is preserved by one RFQ fill: when the declared taker
amount fits uint128 and the stored word is at most the taker amount, the word
after a successful fill is still at most the taker amount. -/
theorem fillRfqOrderPrivate_word_le
    {getRfqOrderHash : RfqOrder → Nat} {ecrecover : Nat → Nat → Nat}
    {env : Env} {stor : Storage} {p : FillRfqOrderPrivateParams}
    {res : FillNativeOrderResults} {stor2 : Storage} {trace : List TraceAction}
    (hw : stor.orderHashToTakerTokenFilledAmount (getRfqOrderHash p.order) ≤
      p.order.takerAmount)
    (h : fillRfqOrderPrivate getRfqOrderHash ecrecover env stor p = .ok (res, stor2, trace)) :
    stor2.orderHashToTakerTokenFilledAmount (getRfqOrderHash p.order) ≤
      p.order.takerAmount := by
  obtain ⟨hstatus, -, -, hsettle, hstor⟩ := fillRfqOrderPrivate_ok_inv h
  obtain ⟨hFT, hTpos, hmEq, hcase⟩ := settleOrder_ok_inv hsettle
  subst hstor
  rcases hcase with ⟨ht0, hm0, hacts⟩ | ⟨htc, htpos, hmpos, hacts⟩
  · subst hacts
    exact hw
  · subst hacts
    rw [applyActionsStorage_write_head _ _ _ _ (by
      intro a ha
      simp only [List.mem_cons, List.mem_singleton] at ha
      rcases ha with rfl | rfl | ha
      · trivial
      · trivial
      · simp at ha)]
    rw [if_pos (show getRfqOrderHash p.order = (rfqSettleInfo env p (getRfqOrderInfo
        getRfqOrderHash env stor p.order)).orderHash from rfl)]
    have hF : (rfqSettleInfo env p (getRfqOrderInfo getRfqOrderHash env stor
        p.order)).takerTokenFilledAmount =
        stor.orderHashToTakerTokenFilledAmount (getRfqOrderHash p.order) % HIGH_BIT := rfl
    have hTA : (rfqSettleInfo env p (getRfqOrderInfo getRfqOrderHash env stor
        p.order)).takerAmount = p.order.takerAmount := rfl
    have hclampLe : clampFill (rfqSettleInfo env p (getRfqOrderInfo getRfqOrderHash env stor
        p.order)) ≤ (rfqSettleInfo env p (getRfqOrderInfo getRfqOrderHash env stor
        p.order)).takerAmount - (rfqSettleInfo env p (getRfqOrderInfo getRfqOrderHash env stor
        p.order)).takerTokenFilledAmount := min_le_right _ _
    rw [hF, hTA] at hclampLe hFT
    rw [hF]
    rw [htc]
    omega

/-- C1.  Amended clamp property of _settleOrder: a successful settlement
settles min(requestedAmount, takerAmount - alreadyFilled) taker tokens
whenever the proportional maker amount of that clamp is nonzero, and settles
0 taker tokens when the proportional maker amount truncates to zero (the
claimed unconditional equality with the clamp fails in that case, see the
counterexample).  In addition, over any sequence of fills of one order —
limit or RFQ — whose taker amount fits uint128, the recorded cumulative
filled amount never exceeds the declared taker amount. -/
theorem C1_clamp_and_cumulative_bound :
    (∀ (s : SettleOrderInfo) (t m : Nat) (acts : List TraceAction),
      settleOrder s = .ok (t, m, acts) →
      t = if clampFill s * s.makerAmount / s.takerAmount = 0 then 0 else clampFill s)
  ∧ (∀ (getLimitOrderHash : LimitOrder → Nat) (ecrecover : Nat → Nat → Nat)
      (order : LimitOrder) (stor : Storage) (fills : List FillAttempt),
      order.takerAmount ≤ UINT128_MAX →
      stor.orderHashToTakerTokenFilledAmount (getLimitOrderHash order) ≤ order.takerAmount →
      (runLimitFills getLimitOrderHash ecrecover order stor
          fills).orderHashToTakerTokenFilledAmount (getLimitOrderHash order) ≤
        order.takerAmount)
  ∧ (∀ (getRfqOrderHash : RfqOrder → Nat) (ecrecover : Nat → Nat → Nat)
      (order : RfqOrder) (stor : Storage) (fills : List RfqFillAttempt),
      order.takerAmount ≤ UINT128_MAX →
      stor.orderHashToTakerTokenFilledAmount (getRfqOrderHash order) ≤ order.takerAmount →
      (runRfqFills getRfqOrderHash ecrecover order stor
          fills).orderHashToTakerTokenFilledAmount (getRfqOrderHash order) ≤
        order.takerAmount) := by
  refine ⟨?_, ?_, ?_⟩
  · intro s t m acts h
    rw [settleOrder_eq] at h
    split_ifs at h with h1 h2 h3 h4 h5
    · simp only [Except.ok.injEq, Prod.mk.injEq] at h
      obtain ⟨ht, hm, hacts⟩ := h
      rcases h4 with hc | hc
      · rw [if_pos (show clampFill s * s.makerAmount / s.takerAmount = 0 by rw [hc]; simp)]
        omega
      · rw [if_pos hc]
        omega
    · push_neg at h4
      simp only [Except.ok.injEq, Prod.mk.injEq] at h
      obtain ⟨ht, hm, hacts⟩ := h
      rw [if_neg h4.2]
      omega
  · intro getLimitOrderHash ecrecover order stor fills _hT hw
    induction fills generalizing stor with
    | nil => exact hw
    | cons a rest ih =>
      rcases hfill : fillLimitOrderPrivate getLimitOrderHash ecrecover a.env stor
          { order := order, signature := a.signature,
            takerTokenFillAmount := a.takerTokenFillAmount, taker := a.taker,
            sender := a.sender } with e | v
      · simp only [runLimitFills, hfill]
        exact ih stor hw
      · obtain ⟨res, stor2, trace⟩ := v
        simp only [runLimitFills, hfill]
        exact ih stor2 (fillLimitOrderPrivate_word_le hw hfill)
  · intro getRfqOrderHash ecrecover order stor fills _hT hw
    induction fills generalizing stor with
    | nil => exact hw
    | cons a rest ih =>
      rcases hfill : fillRfqOrderPrivate getRfqOrderHash ecrecover a.env stor
          { order := order, signature := a.signature,
            takerTokenFillAmount := a.takerTokenFillAmount, taker := a.taker,
            useSelfBalance := a.useSelfBalance, recipient := a.recipient } with e | v
      · simp only [runRfqFills, hfill]
        exact ih stor hw
      · obtain ⟨res, stor2, trace⟩ := v
        simp only [runRfqFills, hfill]
        exact ih stor2 (fillRfqOrderPrivate_word_le hw hfill)

/-- C1 counterexample: with makerAmount 1, takerAmount 10, already-filled 2
and requested amount 20, the clamp min(20, 10 - 2) is 8 but the proportional
maker amount floor(8 * 1 / 10) is 0, so the settlement is a no-op and the
settled taker amount is 0, not the remaining fillable 8 the claim requires. -/
theorem C1_counterexample :
    settleOrder
      { orderHash := 1, maker := 2, payer := 3, recipient := 3, makerToken := 4,
        takerToken := 5, makerAmount := 1, takerAmount := 10, takerTokenFillAmount := 20,
        takerTokenFilledAmount := 2 } = .ok (0, 0, []) ∧
    (0 : Nat) ≠ min 20 (10 - 2) :=
  ⟨rfl, by decide⟩

/-- C1 witness: a concrete successful settlement (maker 2 / taker 2, request
1 against an unfilled order settles exactly the clamp 1) and concrete limit
and RFQ fill sequences respecting the cumulative bound. -/
theorem C1_witness :
    settleOrder wSettle = .ok (1, 1, wSettleActs) ∧
    ((1 : Nat) = if clampFill wSettle * wSettle.makerAmount / wSettle.takerAmount = 0 then 0
     else clampFill wSettle) ∧
    wLimitOrder.takerAmount ≤ UINT128_MAX ∧
    (runLimitFills wHashL wRecover wLimitOrder emptyStorage
        [wAttempt]).orderHashToTakerTokenFilledAmount (wHashL wLimitOrder) ≤
      wLimitOrder.takerAmount ∧
    wRfqOrder.takerAmount ≤ UINT128_MAX ∧
    (runRfqFills wHashR wRecover wRfqOrder emptyStorage
        [wRfqAttempt]).orderHashToTakerTokenFilledAmount (wHashR wRfqOrder) ≤
      wRfqOrder.takerAmount :=
  ⟨rfl,
   C1_clamp_and_cumulative_bound.1 wSettle 1 1 wSettleActs rfl,
   by decide,
   C1_clamp_and_cumulative_bound.2.1 wHashL wRecover wLimitOrder emptyStorage [wAttempt]
     (by decide) (by decide),
   by decide,
   C1_clamp_and_cumulative_bound.2.2 wHashR wRecover wRfqOrder emptyStorage [wRfqAttempt]
     (by decide) (by decide)⟩

/-- C2.  Proportional amounts with truncating division: every successful
settlement computes the maker-token amount as floor(t * makerAmount /
takerAmount) and transfers exactly that amount of maker token from the maker
to the recipient whenever it is nonzero; every successful limit fill
additionally computes the taker-token fee as floor(t * takerTokenFeeAmount /
takerAmount) with the same truncating division and transfers exactly that
amount of taker token from the payer to the fee recipient whenever a fee is
declared. -/
theorem C2_truncating_proportional_amounts :
    (∀ (s : SettleOrderInfo) (t m : Nat) (acts : List TraceAction),
      settleOrder s = .ok (t, m, acts) →
      m = t * s.makerAmount / s.takerAmount ∧
      (0 < m → TraceAction.transfer s.makerToken s.maker s.recipient m ∈ acts))
  ∧ (∀ (getLimitOrderHash : LimitOrder → Nat) (ecrecover : Nat → Nat → Nat)
      (env : Env) (stor : Storage) (p : FillLimitOrderPrivateParams)
      (res : FillNativeOrderResults) (stor2 : Storage) (trace : List TraceAction),
      fillLimitOrderPrivate getLimitOrderHash ecrecover env stor p = .ok (res, stor2, trace) →
      res.makerTokenFilledAmount =
        res.takerTokenFilledAmount * p.order.makerAmount / p.order.takerAmount ∧
      res.takerTokenFeeFilledAmount =
        res.takerTokenFilledAmount * p.order.takerTokenFeeAmount / p.order.takerAmount ∧
      (0 < p.order.takerTokenFeeAmount →
        TraceAction.transfer p.order.takerToken p.taker p.order.feeRecipient
          res.takerTokenFeeFilledAmount ∈ trace)) := by
  constructor
  · intro s t m acts h
    obtain ⟨hFT, hTpos, hmEq, hcase⟩ := settleOrder_ok_inv h
    refine ⟨hmEq, ?_⟩
    intro hmpos
    rcases hcase with ⟨ht0, hm0, hacts⟩ | ⟨htc, htpos, hmpos2, hacts⟩
    · omega
    · subst hacts
      simp
  · intro getLimitOrderHash ecrecover env stor p res stor2 trace h
    obtain ⟨hstatus, -, acts, hsettle, hfeeEq, htrace, hstor⟩ := fillLimitOrderPrivate_ok_inv h
    obtain ⟨hFT, hTpos, hmEq, hcase⟩ := settleOrder_ok_inv hsettle
    refine ⟨hmEq, ?_, ?_⟩
    · rw [hfeeEq]
      split
      · rfl
      · rename_i hP
        have hP0 : p.order.takerTokenFeeAmount = 0 := by omega
        simp [hP0]
    · intro hP
      rw [htrace, if_pos hP]
      exact List.mem_append_right _ (List.mem_singleton_self _)

/-- C2 witness: a concrete limit fill of 25 of 50 taker tokens against 100
maker tokens with a declared fee of 10 yields maker amount 50 = 25 * 100 / 50
and fee 5 = 25 * 10 / 50, both transferred. -/
theorem C2_witness :
    fillLimitOrderPrivate wHashL wRecover wEnv emptyStorage wParams =
      .ok (wRes, applyActionsStorage emptyStorage wTrace, wTrace) ∧
    wRes.makerTokenFilledAmount =
      wRes.takerTokenFilledAmount * wLimitOrder.makerAmount / wLimitOrder.takerAmount ∧
    wRes.takerTokenFeeFilledAmount =
      wRes.takerTokenFilledAmount * wLimitOrder.takerTokenFeeAmount / wLimitOrder.takerAmount ∧
    (0 < wLimitOrder.takerTokenFeeAmount →
      TraceAction.transfer wLimitOrder.takerToken wParams.taker wLimitOrder.feeRecipient
        wRes.takerTokenFeeFilledAmount ∈ wTrace) :=
  ⟨rfl,
   C2_truncating_proportional_amounts.2 wHashL wRecover wEnv emptyStorage wParams wRes
     (applyActionsStorage emptyStorage wTrace) wTrace rfl⟩

/-- C9.  No-op settlement: when the clamped fill amount is zero or the
proportional maker amount truncates to zero, _settleOrder succeeds with
(0, 0) and performs no action at all (no store write, no transfer); at the
fill level a zero settled amount leaves the storage unchanged and every
transfer call in the trace (the zero-amount fee call of the limit path
included) moves amount 0, so every token balance is unchanged. -/
theorem C9_noop_settlement :
    (∀ s : SettleOrderInfo,
      s.takerTokenFilledAmount ≤ s.takerAmount → 0 < s.takerAmount →
      s.takerAmount ≤ UINT128_MAX →
      (clampFill s = 0 ∨ clampFill s * s.makerAmount / s.takerAmount = 0) →
      settleOrder s = .ok (0, 0, []))
  ∧ (∀ (getLimitOrderHash : LimitOrder → Nat) (ecrecover : Nat → Nat → Nat)
      (env : Env) (stor : Storage) (p : FillLimitOrderPrivateParams)
      (res : FillNativeOrderResults) (stor2 : Storage) (trace : List TraceAction),
      fillLimitOrderPrivate getLimitOrderHash ecrecover env stor p = .ok (res, stor2, trace) →
      res.takerTokenFilledAmount = 0 →
      res.makerTokenFilledAmount = 0 ∧ stor2 = stor ∧ (∀ a ∈ trace, a.amount = 0) ∧
      (∀ (bal : Nat → Nat → Nat) (tok acct : Nat),
        applyActionsBalances bal trace tok acct = bal tok acct))
  ∧ (∀ (getRfqOrderHash : RfqOrder → Nat) (ecrecover : Nat → Nat → Nat)
      (env : Env) (stor : Storage) (p : FillRfqOrderPrivateParams)
      (res : FillNativeOrderResults) (stor2 : Storage) (trace : List TraceAction),
      fillRfqOrderPrivate getRfqOrderHash ecrecover env stor p = .ok (res, stor2, trace) →
      res.takerTokenFilledAmount = 0 →
      res.makerTokenFilledAmount = 0 ∧ stor2 = stor ∧ trace = []) := by
  refine ⟨?_, ?_, ?_⟩
  · intro s hFT hTpos hTmax hzero
    rw [settleOrder_eq]
    rw [if_neg (by omega)]
    have hnoover : ¬ UINT128_MAX < clampFill s * s.makerAmount := by
      rcases hzero with hc | hc
      · rw [hc]
        simp [UINT128_MAX]
      · have := (Nat.div_eq_zero_iff (by omega : 0 < s.takerAmount)).mp hc
        omega
    rw [if_neg hnoover, if_neg (by omega)]
    rw [if_pos (by tauto)]
  · intro getLimitOrderHash ecrecover env stor p res stor2 trace h ht0
    obtain ⟨hstatus, -, acts, hsettle, hfeeEq, htrace, hstor⟩ := fillLimitOrderPrivate_ok_inv h
    obtain ⟨hFT, hTpos, hmEq, hcase⟩ := settleOrder_ok_inv hsettle
    have hm0 : res.makerTokenFilledAmount = 0 := by
      rw [hmEq, ht0]
      simp
    have hfee0 : res.takerTokenFeeFilledAmount = 0 := by
      rw [hfeeEq, ht0]
      split <;> simp
    rcases hcase with ⟨-, -, hacts⟩ | ⟨-, htpos, -, -⟩
    · subst hacts
      rw [List.nil_append] at htrace
      have htr : ∀ a ∈ trace, a = TraceAction.transfer p.order.takerToken p.taker
          p.order.feeRecipient res.takerTokenFeeFilledAmount := by
        intro a ha
        rw [htrace] at ha
        split at ha
        · simpa using ha
        · simp at ha
      refine ⟨hm0, ?_, ?_, ?_⟩
      · rw [hstor, htrace]
        split <;> rfl
      · intro a ha
        rw [htr a ha, hfee0]
        rfl
      · intro bal tok acct
        rw [htrace]
        split
        · simp only [applyActionsBalances, List.foldl_cons, List.foldl_nil,
            applyActionBalances, hfee0]
          split_ifs <;> omega
        · rfl
    · omega
  · intro getRfqOrderHash ecrecover env stor p res stor2 trace h ht0
    obtain ⟨hstatus, -, -, hsettle, hstor⟩ := fillRfqOrderPrivate_ok_inv h
    obtain ⟨hFT, hTpos, hmEq, hcase⟩ := settleOrder_ok_inv hsettle
    rcases hcase with ⟨-, hm0, hacts⟩ | ⟨-, htpos, -, -⟩
    · subst hacts
      exact ⟨hm0, by rw [hstor]; rfl, rfl⟩
    · omega

/-- C9 witness: a request of 4 against makerAmount 1 / takerAmount 9 clamps
to 4 but floor(4 * 1 / 9) = 0, so the settlement is a no-op; the concrete
limit fill succeeds with (0, 0), leaves the storage untouched and only emits
the zero-amount fee call. -/
theorem C9_witness :
    settleOrder (limitSettleInfo wNoopParams
        (getLimitOrderInfo wHashL wEnv emptyStorage wSmallOrder)) = .ok (0, 0, []) ∧
    fillLimitOrderPrivate wHashL wRecover wEnv emptyStorage wNoopParams =
      .ok (wNoopRes, emptyStorage, wNoopTrace) ∧
    wNoopRes.makerTokenFilledAmount = 0 ∧
    (∀ a ∈ wNoopTrace, a.amount = 0) ∧
    (∀ (bal : Nat → Nat → Nat) (tok acct : Nat),
      applyActionsBalances bal wNoopTrace tok acct = bal tok acct) := by
  have h2 := C9_noop_settlement.2.1 wHashL wRecover wEnv emptyStorage wNoopParams wNoopRes
    emptyStorage wNoopTrace rfl rfl
  exact ⟨C9_noop_settlement.1 _ (by decide) (by decide) (by decide) (by decide),
    rfl, h2.1, h2.2.2.1, h2.2.2.2⟩

/-- C3.  The proportional-fill multiplication is performed in uint128 (both
operands of takerTokenFilledAmount * makerAmount are uint128) and Solidity
0.8 checked arithmetic reverts on wrap: the concrete order below has every
amount inside uint128 (makerAmount 2^127, takerAmount 2), passes the
fillability, restriction and signature checks of _fillLimitOrderPrivate, and
the fill of 2 taker tokens still aborts with an arithmetic panic because
2 * 2^127 = 2^128 exceeds UINT128_MAX, contradicting the claim (and the
comment in _settleOrder asserting the computation cannot overflow). -/
theorem C3_overflow_failing_input :
    c3Order.makerAmount ≤ UINT128_MAX ∧ c3Order.takerAmount ≤ UINT128_MAX ∧
    (getLimitOrderInfo wHashL wEnv emptyStorage c3Order).status = .Fillable ∧
    fillLimitOrderPrivate wHashL wRecover wEnv emptyStorage
      { order := c3Order, signature := 1, takerTokenFillAmount := 2, taker := 41,
        sender := 41 } = .error .arithmeticPanic :=
  ⟨by decide, by decide, by decide, rfl⟩

/-- C4.  Checks-effects-interactions ordering: in every successful fill that
settles a positive taker amount, the first action of the trace is the write
of the updated cumulative filled amount (pre-fill filled plus settled
amount) to the fill record of the order hash, and every later action is an
external transfer call, so no token transfer is initiated while the store
still holds the pre-fill filled amount. -/
theorem C4_state_write_before_transfers :
    (∀ (getLimitOrderHash : LimitOrder → Nat) (ecrecover : Nat → Nat → Nat)
      (env : Env) (stor : Storage) (p : FillLimitOrderPrivateParams)
      (res : FillNativeOrderResults) (stor2 : Storage) (trace : List TraceAction),
      fillLimitOrderPrivate getLimitOrderHash ecrecover env stor p = .ok (res, stor2, trace) →
      0 < res.takerTokenFilledAmount →
      ∃ rest, trace = TraceAction.storeWrite (getLimitOrderHash p.order)
          ((getLimitOrderInfo getLimitOrderHash env stor p.order).takerTokenFilledAmount +
            res.takerTokenFilledAmount) :: rest ∧ ∀ a ∈ rest, a.isTransfer)
  ∧ (∀ (getRfqOrderHash : RfqOrder → Nat) (ecrecover : Nat → Nat → Nat)
      (env : Env) (stor : Storage) (p : FillRfqOrderPrivateParams)
      (res : FillNativeOrderResults) (stor2 : Storage) (trace : List TraceAction),
      fillRfqOrderPrivate getRfqOrderHash ecrecover env stor p = .ok (res, stor2, trace) →
      0 < res.takerTokenFilledAmount →
      ∃ rest, trace = TraceAction.storeWrite (getRfqOrderHash p.order)
          ((getRfqOrderInfo getRfqOrderHash env stor p.order).takerTokenFilledAmount +
            res.takerTokenFilledAmount) :: rest ∧ ∀ a ∈ rest, a.isTransfer) := by
  constructor
  · intro getLimitOrderHash ecrecover env stor p res stor2 trace h htpos
    obtain ⟨hstatus, -, acts, hsettle, hfeeEq, htrace, hstor⟩ := fillLimitOrderPrivate_ok_inv h
    obtain ⟨hFT, hTpos, hmEq, hcase⟩ := settleOrder_ok_inv hsettle
    rcases hcase with ⟨ht0, -, -⟩ | ⟨-, -, -, hacts⟩
    · omega
    · subst hacts
      rw [htrace, List.cons_append]
      refine ⟨_, rfl, ?_⟩
      · intro a ha
        rw [List.mem_append] at ha
        rcases ha with ha | ha
        · simp only [List.mem_cons, List.mem_singleton] at ha
          rcases ha with rfl | rfl | ha
          · trivial
          · trivial
          · simp at ha
        · split at ha
          · simp only [List.mem_singleton] at ha
            subst ha
            trivial
          · simp at ha
  · intro getRfqOrderHash ecrecover env stor p res stor2 trace h htpos
    obtain ⟨hstatus, -, -, hsettle, hstor⟩ := fillRfqOrderPrivate_ok_inv h
    obtain ⟨hFT, hTpos, hmEq, hcase⟩ := settleOrder_ok_inv hsettle
    rcases hcase with ⟨ht0, -, -⟩ | ⟨-, -, -, hacts⟩
    · omega
    · subst hacts
      refine ⟨_, rfl, ?_⟩
      intro a ha
      simp only [List.mem_cons, List.mem_singleton] at ha
      rcases ha with rfl | rfl | ha
      · trivial
      · trivial
      · simp at ha

/-- C4 witness: the concrete limit and RFQ fills of 25 taker tokens both
start their traces with the fill-record write of 0 + 25. -/
theorem C4_witness :
    fillLimitOrderPrivate wHashL wRecover wEnv emptyStorage wParams =
      .ok (wRes, applyActionsStorage emptyStorage wTrace, wTrace) ∧
    (0 : Nat) < wRes.takerTokenFilledAmount ∧
    (∃ rest, wTrace = TraceAction.storeWrite (wHashL wLimitOrder)
        ((getLimitOrderInfo wHashL wEnv emptyStorage wLimitOrder).takerTokenFilledAmount +
          wRes.takerTokenFilledAmount) :: rest ∧ ∀ a ∈ rest, a.isTransfer) ∧
    (∃ rest, wRfqTrace = TraceAction.storeWrite (wHashR wRfqOrder)
        ((getRfqOrderInfo wHashR wEnv emptyStorage wRfqOrder).takerTokenFilledAmount +
          wRfqRes.takerTokenFilledAmount) :: rest ∧ ∀ a ∈ rest, a.isTransfer) :=
  ⟨rfl, by decide,
   C4_state_write_before_transfers.1 wHashL wRecover wEnv emptyStorage wParams wRes
     (applyActionsStorage emptyStorage wTrace) wTrace rfl (by decide),
   C4_state_write_before_transfers.2 wHashR wRecover wEnv emptyStorage wRfqParams wRfqRes
     (applyActionsStorage emptyStorage wRfqTrace) wRfqTrace rfl (by decide)⟩

/-! ## Cancellation: the cancelled bit is absorbing -/

theorem feeOpt_transfers (c : Prop) [Decidable c] (tok src dst amt : Nat) :
    ∀ a ∈ (if c then [TraceAction.transfer tok src dst amt] else ([] : List TraceAction)),
      a.isTransfer := by
  intro a ha
  split at ha
  · simp only [List.mem_singleton] at ha
    subst ha
    trivial
  · simp at ha

/-- Status of an order whose fill record has the cancelled bit set: Invalid
when the taker amount is zero, Cancelled otherwise; never Fillable. -/
theorem getOrderInfoFromState_status_of_bit {orderHash takerAmount expiry : Nat} {env : Env}
    {stor : Storage}
    (hbit : (stor.orderHashToTakerTokenFilledAmount orderHash).testBit 255 = true) :
    (getOrderInfoFromState orderHash takerAmount expiry env stor).status =
      (if takerAmount = 0 then .Invalid else .Cancelled) ∧
    (getOrderInfoFromState orderHash takerAmount expiry env stor).status ≠ .Fillable := by
  constructor
  · simp only [getOrderInfoFromState, hbit]
    split_ifs <;> simp_all
  · simp only [getOrderInfoFromState, hbit]
    split_ifs <;> simp_all

/-- One successful limit fill keeps the cancelled bit of every order hash. -/
theorem fillLimitOrderPrivate_preserves_bit
    {getLimitOrderHash : LimitOrder → Nat} {ecrecover : Nat → Nat → Nat}
    {env : Env} {stor : Storage} {p : FillLimitOrderPrivateParams}
    {res : FillNativeOrderResults} {stor2 : Storage} {trace : List TraceAction} {h : Nat}
    (hbit : (stor.orderHashToTakerTokenFilledAmount h).testBit 255 = true)
    (hres : fillLimitOrderPrivate getLimitOrderHash ecrecover env stor p =
      .ok (res, stor2, trace)) :
    (stor2.orderHashToTakerTokenFilledAmount h).testBit 255 = true := by
  obtain ⟨hstatus, -, acts, hsettle, hfeeEq, htrace, hstor⟩ := fillLimitOrderPrivate_ok_inv hres
  obtain ⟨-, -, -, hcase⟩ := settleOrder_ok_inv hsettle
  subst hstor
  rcases hcase with ⟨-, -, hacts⟩ | ⟨-, -, -, hacts⟩
  · subst hacts
    rw [htrace, List.nil_append, applyActionsStorage_transfers _ _ (feeOpt_transfers _ _ _ _ _)]
    exact hbit
  · subst hacts
    rw [htrace, List.cons_append, applyActionsStorage_write_head _ _ _ _ (by
      intro a ha
      rw [List.mem_append] at ha
      rcases ha with ha | ha
      · simp only [List.mem_cons, List.mem_singleton] at ha
        rcases ha with rfl | rfl | ha
        · trivial
        · trivial
        · simp at ha
      · exact feeOpt_transfers _ _ _ _ _ a ha)]
    by_cases hK : h = (limitSettleInfo p (getLimitOrderInfo getLimitOrderHash env stor
        p.order)).orderHash
    · exfalso
      have hKey : (limitSettleInfo p (getLimitOrderInfo getLimitOrderHash env stor
          p.order)).orderHash = getLimitOrderHash p.order := rfl
      rw [hKey] at hK
      subst hK
      exact (getOrderInfoFromState_status_of_bit hbit).2 hstatus
    · rw [if_neg hK]
      exact hbit

/-- One successful RFQ fill keeps the cancelled bit of every order hash. -/
theorem fillRfqOrderPrivate_preserves_bit
    {getRfqOrderHash : RfqOrder → Nat} {ecrecover : Nat → Nat → Nat}
    {env : Env} {stor : Storage} {p : FillRfqOrderPrivateParams}
    {res : FillNativeOrderResults} {stor2 : Storage} {trace : List TraceAction} {h : Nat}
    (hbit : (stor.orderHashToTakerTokenFilledAmount h).testBit 255 = true)
    (hres : fillRfqOrderPrivate getRfqOrderHash ecrecover env stor p = .ok (res, stor2, trace)) :
    (stor2.orderHashToTakerTokenFilledAmount h).testBit 255 = true := by
  obtain ⟨hstatus, -, -, hsettle, hstor⟩ := fillRfqOrderPrivate_ok_inv hres
  obtain ⟨-, -, -, hcase⟩ := settleOrder_ok_inv hsettle
  subst hstor
  rcases hcase with ⟨-, -, hacts⟩ | ⟨-, -, -, hacts⟩
  · subst hacts
    exact hbit
  · subst hacts
    rw [applyActionsStorage_write_head _ _ _ _ (by
      intro a ha
      simp only [List.mem_cons, List.mem_singleton] at ha
      rcases ha with rfl | rfl | ha
      · trivial
      · trivial
      · simp at ha)]
    by_cases hK : h = (rfqSettleInfo env p (getRfqOrderInfo getRfqOrderHash env stor
        p.order)).orderHash
    · exfalso
      have hKey : (rfqSettleInfo env p (getRfqOrderInfo getRfqOrderHash env stor
          p.order)).orderHash = getRfqOrderHash p.order := rfl
      rw [hKey] at hK
      subst hK
      exact (getOrderInfoFromState_status_of_bit hbit).2 hstatus
    · rw [if_neg hK]
      exact hbit

/-- One engine operation keeps the cancelled bit of every order hash. -/
theorem applyEngineOp_preserves_bit
    (getLimitOrderHash : LimitOrder → Nat) (getRfqOrderHash : RfqOrder → Nat)
    (ecrecover : Nat → Nat → Nat) (stor : Storage) (op : EngineOp) (h : Nat)
    (hbit : (stor.orderHashToTakerTokenFilledAmount h).testBit 255 = true) :
    ((applyEngineOp getLimitOrderHash getRfqOrderHash ecrecover stor
        op).orderHashToTakerTokenFilledAmount h).testBit 255 = true := by
  cases op with
  | fillLimit env p =>
    simp only [applyEngineOp]
    rcases hres : fillLimitOrderPrivate getLimitOrderHash ecrecover env stor p with e | v
    · exact hbit
    · obtain ⟨res, stor2, trace⟩ := v
      exact fillLimitOrderPrivate_preserves_bit hbit hres
  | fillRfq env p =>
    simp only [applyEngineOp]
    rcases hres : fillRfqOrderPrivate getRfqOrderHash ecrecover env stor p with e | v
    · exact hbit
    · obtain ⟨res, stor2, trace⟩ := v
      exact fillRfqOrderPrivate_preserves_bit hbit hres
  | cancelLimit msgSender order =>
    simp only [applyEngineOp]
    rcases hres : cancelLimitOrder getLimitOrderHash msgSender stor order with e | stor2
    · exact hbit
    · simp only [cancelLimitOrder] at hres
      by_cases hc : msgSender ≠ order.maker ∧ ¬ stor.validOrderSigner order.maker msgSender
      · rw [if_pos hc] at hres
        exact absurd hres (by simp)
      · rw [if_neg hc] at hres
        simp only [Except.ok.injEq] at hres
        subst hres
        by_cases hK : h = getLimitOrderHash order
        · subst hK
          simp [cancelOrderHash, Nat.testBit_lor, hbit]
        · simp [cancelOrderHash, hK, hbit]
  | cancelRfq msgSender order =>
    simp only [applyEngineOp]
    rcases hres : cancelRfqOrder getRfqOrderHash msgSender stor order with e | stor2
    · exact hbit
    · simp only [cancelRfqOrder] at hres
      by_cases hc : msgSender ≠ order.maker ∧ ¬ stor.validOrderSigner order.maker msgSender
      · rw [if_pos hc] at hres
        exact absurd hres (by simp)
      · rw [if_neg hc] at hres
        simp only [Except.ok.injEq] at hres
        subst hres
        by_cases hK : h = getRfqOrderHash order
        · subst hK
          simp [cancelOrderHash, Nat.testBit_lor, hbit]
        · simp [cancelOrderHash, hK, hbit]
  | registerOrigins msgSender env origins allowed =>
    simp only [applyEngineOp]
    rcases hres : registerAllowedRfqOrigins msgSender env stor origins allowed with e | stor2
    · exact hbit
    · simp only [registerAllowedRfqOrigins] at hres
      by_cases hc : msgSender ≠ env.txOrigin
      · rw [if_pos hc] at hres
        exact absurd hres (by simp)
      · rw [if_neg hc] at hres
        simp only [Except.ok.injEq] at hres
        subst hres
        exact hbit

/-- C5.  Cancellation sets the top bit of the packed fill record and is
idempotent: an authorized cancelLimitOrder or cancelRfqOrder always succeeds
(whatever the current record, cancelled or fully filled included) and leaves
the cancelled bit set; cancelling twice leaves the same record as cancelling
once; once the bit is set, no engine operation (fill, cancel, origin
registration) ever clears it; the status of an order with the bit set and a
nonzero taker amount is Cancelled; and every subsequent fill of such an
order reverts with OrderNotFillableError, so the order never returns to
Fillable. -/
theorem C5_cancel_top_bit_absorbing :
    (∀ (stor : Storage) (K : Nat),
      ((cancelOrderHash stor K).orderHashToTakerTokenFilledAmount K).testBit 255 = true)
  ∧ (∀ (getLimitOrderHash : LimitOrder → Nat) (msgSender : Nat) (stor : Storage)
      (order : LimitOrder),
      (msgSender = order.maker ∨ stor.validOrderSigner order.maker msgSender = true) →
      cancelLimitOrder getLimitOrderHash msgSender stor order =
        .ok (cancelOrderHash stor (getLimitOrderHash order)))
  ∧ (∀ (getRfqOrderHash : RfqOrder → Nat) (msgSender : Nat) (stor : Storage)
      (order : RfqOrder),
      (msgSender = order.maker ∨ stor.validOrderSigner order.maker msgSender = true) →
      cancelRfqOrder getRfqOrderHash msgSender stor order =
        .ok (cancelOrderHash stor (getRfqOrderHash order)))
  ∧ (∀ (stor : Storage) (K k : Nat),
      (cancelOrderHash (cancelOrderHash stor K) K).orderHashToTakerTokenFilledAmount k =
        (cancelOrderHash stor K).orderHashToTakerTokenFilledAmount k)
  ∧ (∀ (getLimitOrderHash : LimitOrder → Nat) (getRfqOrderHash : RfqOrder → Nat)
      (ecrecover : Nat → Nat → Nat) (ops : List EngineOp) (stor : Storage) (h : Nat),
      (stor.orderHashToTakerTokenFilledAmount h).testBit 255 = true →
      ((applyEngineOps getLimitOrderHash getRfqOrderHash ecrecover stor
          ops).orderHashToTakerTokenFilledAmount h).testBit 255 = true)
  ∧ (∀ (getLimitOrderHash : LimitOrder → Nat) (env : Env) (stor : Storage) (order : LimitOrder),
      (stor.orderHashToTakerTokenFilledAmount (getLimitOrderHash order)).testBit 255 = true →
      order.takerAmount ≠ 0 →
      (getLimitOrderInfo getLimitOrderHash env stor order).status = .Cancelled)
  ∧ (∀ (getLimitOrderHash : LimitOrder → Nat) (ecrecover : Nat → Nat → Nat) (env : Env)
      (stor : Storage) (p : FillLimitOrderPrivateParams),
      (stor.orderHashToTakerTokenFilledAmount (getLimitOrderHash p.order)).testBit 255 = true →
      fillLimitOrderPrivate getLimitOrderHash ecrecover env stor p =
        .error (.orderNotFillableError (getLimitOrderHash p.order)
          (getLimitOrderInfo getLimitOrderHash env stor p.order).status.code))
  ∧ (∀ (getRfqOrderHash : RfqOrder → Nat) (ecrecover : Nat → Nat → Nat) (env : Env)
      (stor : Storage) (p : FillRfqOrderPrivateParams),
      (stor.orderHashToTakerTokenFilledAmount (getRfqOrderHash p.order)).testBit 255 = true →
      fillRfqOrderPrivate getRfqOrderHash ecrecover env stor p =
        .error (.orderNotFillableError (getRfqOrderHash p.order)
          (getRfqOrderInfo getRfqOrderHash env stor p.order).status.code)) := by
  refine ⟨?_, ?_, ?_, ?_, ?_, ?_, ?_, ?_⟩
  · intro stor K
    have hH : (stor.orderHashToTakerTokenFilledAmount K ||| HIGH_BIT).testBit 255 = true := by
      rw [Nat.testBit_lor, show Nat.testBit HIGH_BIT 255 = true from by decide, Bool.or_true]
    simpa [cancelOrderHash] using hH
  · intro getLimitOrderHash msgSender stor order hauth
    simp only [cancelLimitOrder]
    rw [if_neg (by tauto)]
  · intro getRfqOrderHash msgSender stor order hauth
    simp only [cancelRfqOrder]
    rw [if_neg (by tauto)]
  · intro stor K k
    by_cases hk : k = K
    · subst hk
      simp [cancelOrderHash, Nat.lor_assoc]
    · simp [cancelOrderHash, hk]
  · intro getLimitOrderHash getRfqOrderHash ecrecover ops
    induction ops with
    | nil => intro stor h hbit; exact hbit
    | cons op rest ih =>
      intro stor h hbit
      exact ih _ h (applyEngineOp_preserves_bit getLimitOrderHash getRfqOrderHash ecrecover
        stor op h hbit)
  · intro getLimitOrderHash env stor order hbit hT
    have := (@getOrderInfoFromState_status_of_bit (getLimitOrderHash order)
      order.takerAmount order.expiry env stor hbit).1
    rw [getLimitOrderInfo, this, if_neg hT]
  · intro getLimitOrderHash ecrecover env stor p hbit
    have hst : (getLimitOrderInfo getLimitOrderHash env stor p.order).status ≠ .Fillable :=
      (@getOrderInfoFromState_status_of_bit (getLimitOrderHash p.order)
        p.order.takerAmount p.order.expiry env stor hbit).2
    simp only [fillLimitOrderPrivate]
    rw [if_pos hst]
    rfl
  · intro getRfqOrderHash ecrecover env stor p hbit
    have hst : (getRfqOrderInfo getRfqOrderHash env stor p.order).status ≠ .Fillable :=
      (@getOrderInfoFromState_status_of_bit (getRfqOrderHash p.order)
        p.order.takerAmount p.order.expiry env stor hbit).2
    simp only [fillRfqOrderPrivate]
    rw [if_pos hst]
    rfl

/-- C5 witness: cancelling the concrete limit order succeeds and sets the
bit; the bit survives a subsequent fill attempt; and that fill attempt
reverts with OrderNotFillableError (status code 3, Cancelled). -/
theorem C5_witness :
    (21 = wLimitOrder.maker ∨ emptyStorage.validOrderSigner wLimitOrder.maker 21 = true) ∧
    cancelLimitOrder wHashL 21 emptyStorage wLimitOrder =
      .ok (cancelOrderHash emptyStorage (wHashL wLimitOrder)) ∧
    ((applyEngineOps wHashL wHashR wRecover (cancelOrderHash emptyStorage 7)
        [EngineOp.fillLimit wEnv wParams]).orderHashToTakerTokenFilledAmount 7).testBit 255 =
      true ∧
    fillLimitOrderPrivate wHashL wRecover wEnv (cancelOrderHash emptyStorage 7) wParams =
      .error (.orderNotFillableError (wHashL wLimitOrder)
        (getLimitOrderInfo wHashL wEnv (cancelOrderHash emptyStorage 7)
          wLimitOrder).status.code) :=
  ⟨by decide,
   C5_cancel_top_bit_absorbing.2.1 wHashL 21 emptyStorage wLimitOrder (by decide),
   C5_cancel_top_bit_absorbing.2.2.2.2.1 wHashL wHashR wRecover
     [EngineOp.fillLimit wEnv wParams] (cancelOrderHash emptyStorage 7) 7 (by decide),
   C5_cancel_top_bit_absorbing.2.2.2.2.2.2.1 wHashL wRecover wEnv
     (cancelOrderHash emptyStorage 7) wParams (by decide)⟩

/-- C6.  Failure semantics of fill steps 1 to 3: each rejection reverts the
whole fill (Except.error: the caller keeps the pre-call storage, nothing is
settled and no transfer is issued) with the specific rich error carrying the
order hash and the offending actual and expected identities, in check order:
order not Fillable; taker restriction; sender restriction (limit) or origin
restriction with delegate allowlist (RFQ); recovered signer neither the
maker nor a registered valid order signer. -/
theorem C6_rejections_abort_with_specific_errors :
    (∀ (getLimitOrderHash : LimitOrder → Nat) (ecrecover : Nat → Nat → Nat) (env : Env)
      (stor : Storage) (p : FillLimitOrderPrivateParams),
      (getLimitOrderInfo getLimitOrderHash env stor p.order).status ≠ .Fillable →
      fillLimitOrderPrivate getLimitOrderHash ecrecover env stor p =
        .error (.orderNotFillableError (getLimitOrderHash p.order)
          (getLimitOrderInfo getLimitOrderHash env stor p.order).status.code))
  ∧ (∀ (getLimitOrderHash : LimitOrder → Nat) (ecrecover : Nat → Nat → Nat) (env : Env)
      (stor : Storage) (p : FillLimitOrderPrivateParams),
      (getLimitOrderInfo getLimitOrderHash env stor p.order).status = .Fillable →
      p.order.taker ≠ 0 → p.order.taker ≠ p.taker →
      fillLimitOrderPrivate getLimitOrderHash ecrecover env stor p =
        .error (.orderNotFillableByTakerError (getLimitOrderHash p.order) p.taker p.order.taker))
  ∧ (∀ (getLimitOrderHash : LimitOrder → Nat) (ecrecover : Nat → Nat → Nat) (env : Env)
      (stor : Storage) (p : FillLimitOrderPrivateParams),
      (getLimitOrderInfo getLimitOrderHash env stor p.order).status = .Fillable →
      (p.order.taker = 0 ∨ p.order.taker = p.taker) →
      p.order.sender ≠ 0 → p.order.sender ≠ p.sender →
      fillLimitOrderPrivate getLimitOrderHash ecrecover env stor p =
        .error (.orderNotFillableBySenderError (getLimitOrderHash p.order) p.sender
          p.order.sender))
  ∧ (∀ (getLimitOrderHash : LimitOrder → Nat) (ecrecover : Nat → Nat → Nat) (env : Env)
      (stor : Storage) (p : FillLimitOrderPrivateParams),
      (getLimitOrderInfo getLimitOrderHash env stor p.order).status = .Fillable →
      (p.order.taker = 0 ∨ p.order.taker = p.taker) →
      (p.order.sender = 0 ∨ p.order.sender = p.sender) →
      ecrecover (getLimitOrderHash p.order) p.signature ≠ p.order.maker →
      stor.validOrderSigner p.order.maker
        (ecrecover (getLimitOrderHash p.order) p.signature) = false →
      fillLimitOrderPrivate getLimitOrderHash ecrecover env stor p =
        .error (.orderNotSignedByMakerError (getLimitOrderHash p.order)
          (ecrecover (getLimitOrderHash p.order) p.signature) p.order.maker))
  ∧ (∀ (getRfqOrderHash : RfqOrder → Nat) (ecrecover : Nat → Nat → Nat) (env : Env)
      (stor : Storage) (p : FillRfqOrderPrivateParams),
      (getRfqOrderInfo getRfqOrderHash env stor p.order).status ≠ .Fillable →
      fillRfqOrderPrivate getRfqOrderHash ecrecover env stor p =
        .error (.orderNotFillableError (getRfqOrderHash p.order)
          (getRfqOrderInfo getRfqOrderHash env stor p.order).status.code))
  ∧ (∀ (getRfqOrderHash : RfqOrder → Nat) (ecrecover : Nat → Nat → Nat) (env : Env)
      (stor : Storage) (p : FillRfqOrderPrivateParams),
      (getRfqOrderInfo getRfqOrderHash env stor p.order).status = .Fillable →
      p.order.txOrigin ≠ env.txOrigin →
      stor.originRegistry p.order.txOrigin env.txOrigin = false →
      fillRfqOrderPrivate getRfqOrderHash ecrecover env stor p =
        .error (.orderNotFillableByOriginError (getRfqOrderHash p.order) env.txOrigin
          p.order.txOrigin))
  ∧ (∀ (getRfqOrderHash : RfqOrder → Nat) (ecrecover : Nat → Nat → Nat) (env : Env)
      (stor : Storage) (p : FillRfqOrderPrivateParams),
      (getRfqOrderInfo getRfqOrderHash env stor p.order).status = .Fillable →
      (p.order.txOrigin = env.txOrigin ∨
        stor.originRegistry p.order.txOrigin env.txOrigin = true) →
      p.order.taker ≠ 0 → p.order.taker ≠ p.taker →
      fillRfqOrderPrivate getRfqOrderHash ecrecover env stor p =
        .error (.orderNotFillableByTakerError (getRfqOrderHash p.order) p.taker p.order.taker))
  ∧ (∀ (getRfqOrderHash : RfqOrder → Nat) (ecrecover : Nat → Nat → Nat) (env : Env)
      (stor : Storage) (p : FillRfqOrderPrivateParams),
      (getRfqOrderInfo getRfqOrderHash env stor p.order).status = .Fillable →
      (p.order.txOrigin = env.txOrigin ∨
        stor.originRegistry p.order.txOrigin env.txOrigin = true) →
      (p.order.taker = 0 ∨ p.order.taker = p.taker) →
      ecrecover (getRfqOrderHash p.order) p.signature ≠ p.order.maker →
      stor.validOrderSigner p.order.maker
        (ecrecover (getRfqOrderHash p.order) p.signature) = false →
      fillRfqOrderPrivate getRfqOrderHash ecrecover env stor p =
        .error (.orderNotSignedByMakerError (getRfqOrderHash p.order)
          (ecrecover (getRfqOrderHash p.order) p.signature) p.order.maker)) := by
  refine ⟨?_, ?_, ?_, ?_, ?_, ?_, ?_, ?_⟩
  · intro getLimitOrderHash ecrecover env stor p h1
    simp only [fillLimitOrderPrivate]
    rw [if_pos h1]
    rfl
  · intro getLimitOrderHash ecrecover env stor p h1 h2 h3
    simp only [fillLimitOrderPrivate]
    rw [if_neg (not_ne_iff.mpr h1), if_pos ⟨h2, h3⟩]
    rfl
  · intro getLimitOrderHash ecrecover env stor p h1 h2 h3 h4
    simp only [fillLimitOrderPrivate]
    rw [if_neg (not_ne_iff.mpr h1), if_neg (by tauto), if_pos ⟨h3, h4⟩]
    rfl
  · intro getLimitOrderHash ecrecover env stor p h1 h2 h3 h4 h5
    have h5x : stor.validOrderSigner p.order.maker
        (ecrecover (getLimitOrderInfo getLimitOrderHash env stor p.order).orderHash
          p.signature) = false := h5
    simp only [fillLimitOrderPrivate]
    rw [if_neg (not_ne_iff.mpr h1), if_neg (by tauto), if_neg (by tauto),
      if_pos ⟨h4, by simp [h5x]⟩]
    rfl
  · intro getRfqOrderHash ecrecover env stor p h1
    simp only [fillRfqOrderPrivate]
    rw [if_pos h1]
    rfl
  · intro getRfqOrderHash ecrecover env stor p h1 h2 h3
    simp only [fillRfqOrderPrivate]
    rw [if_neg (not_ne_iff.mpr h1), if_pos ⟨h2, by simp [h3]⟩]
    rfl
  · intro getRfqOrderHash ecrecover env stor p h1 h2 h3 h4
    simp only [fillRfqOrderPrivate]
    rw [if_neg (not_ne_iff.mpr h1), if_neg (by
      rcases h2 with h2 | h2
      · tauto
      · intro hcon
        exact hcon.2 (by simp [h2])), if_pos ⟨h3, h4⟩]
    rfl
  · intro getRfqOrderHash ecrecover env stor p h1 h2 h3 h4 h5
    have h5x : stor.validOrderSigner p.order.maker
        (ecrecover (getRfqOrderInfo getRfqOrderHash env stor p.order).orderHash
          p.signature) = false := h5
    simp only [fillRfqOrderPrivate]
    rw [if_neg (not_ne_iff.mpr h1), if_neg (by
      rcases h2 with h2 | h2
      · tauto
      · intro hcon
        exact hcon.2 (by simp [h2])), if_neg (by tauto), if_pos ⟨h4, by simp [h5x]⟩]
    rfl

/-- C6 witness: four concrete rejections, each with its specific error: an
expired order (status code 4), a taker-restricted order filled by the wrong
taker, a limit order signed by a non-maker non-delegate, and an RFQ order
with a foreign transaction origin. -/
theorem C6_witness :
    fillLimitOrderPrivate wHashL wRecover wEnv emptyStorage
      { order := wExpiredOrder, signature := 1, takerTokenFillAmount := 25, taker := 41,
        sender := 41 } =
      .error (.orderNotFillableError (wHashL wExpiredOrder)
        (getLimitOrderInfo wHashL wEnv emptyStorage wExpiredOrder).status.code) ∧
    fillLimitOrderPrivate wHashL wRecover wEnv emptyStorage
      { order := wTakerRestrictedOrder, signature := 1, takerTokenFillAmount := 25, taker := 41,
        sender := 41 } =
      .error (.orderNotFillableByTakerError (wHashL wTakerRestrictedOrder) 41 42) ∧
    fillLimitOrderPrivate wHashL wRecover wEnv emptyStorage
      { order := wForeignMakerOrder, signature := 1, takerTokenFillAmount := 25, taker := 41,
        sender := 41 } =
      .error (.orderNotSignedByMakerError (wHashL wForeignMakerOrder) 21 22) ∧
    fillRfqOrderPrivate wHashR wRecover wEnv emptyStorage
      { order := wOriginRfqOrder, signature := 1, takerTokenFillAmount := 25, taker := 41,
        useSelfBalance := false, recipient := 41 } =
      .error (.orderNotFillableByOriginError (wHashR wOriginRfqOrder) 31 32) :=
  ⟨C6_rejections_abort_with_specific_errors.1 wHashL wRecover wEnv emptyStorage
     { order := wExpiredOrder, signature := 1, takerTokenFillAmount := 25, taker := 41,
       sender := 41 } (by decide),
   C6_rejections_abort_with_specific_errors.2.1 wHashL wRecover wEnv emptyStorage
     { order := wTakerRestrictedOrder, signature := 1, takerTokenFillAmount := 25, taker := 41,
       sender := 41 } (by decide) (by decide) (by decide),
   C6_rejections_abort_with_specific_errors.2.2.2.1 wHashL wRecover wEnv emptyStorage
     { order := wForeignMakerOrder, signature := 1, takerTokenFillAmount := 25, taker := 41,
       sender := 41 } (by decide) (by decide) (by decide) (by decide) (by decide),
   C6_rejections_abort_with_specific_errors.2.2.2.2.2.1 wHashR wRecover wEnv emptyStorage
     { order := wOriginRfqOrder, signature := 1, takerTokenFillAmount := 25, taker := 41,
       useSelfBalance := false, recipient := 41 } (by decide) (by decide) (by decide)⟩

/-- C8.  Cancellation authorization: a single cancel reverts with
OnlyOrderMakerAllowed (carrying the order hash, the caller and the maker) if
and only if the caller is neither the maker nor a registered valid order
signer for that maker; and a batch cancel containing any order whose
authorization check fails reverts whole (Except.error: no order in the batch
is cancelled) with the OnlyOrderMakerAllowed error of a failing order. -/
theorem C8_cancel_authorization :
    (∀ (getLimitOrderHash : LimitOrder → Nat) (msgSender : Nat) (stor : Storage)
      (order : LimitOrder),
      cancelLimitOrder getLimitOrderHash msgSender stor order =
          .error (.onlyOrderMakerAllowed (getLimitOrderHash order) msgSender order.maker) ↔
        (msgSender ≠ order.maker ∧ stor.validOrderSigner order.maker msgSender = false))
  ∧ (∀ (getRfqOrderHash : RfqOrder → Nat) (msgSender : Nat) (stor : Storage) (order : RfqOrder),
      cancelRfqOrder getRfqOrderHash msgSender stor order =
          .error (.onlyOrderMakerAllowed (getRfqOrderHash order) msgSender order.maker) ↔
        (msgSender ≠ order.maker ∧ stor.validOrderSigner order.maker msgSender = false))
  ∧ (∀ (getLimitOrderHash : LimitOrder → Nat) (msgSender : Nat) (stor : Storage)
      (orders : List LimitOrder),
      (∃ o ∈ orders, msgSender ≠ o.maker ∧ stor.validOrderSigner o.maker msgSender = false) →
      ∃ o ∈ orders, batchCancelLimitOrders getLimitOrderHash msgSender stor orders =
          .error (.onlyOrderMakerAllowed (getLimitOrderHash o) msgSender o.maker) ∧
        msgSender ≠ o.maker ∧ stor.validOrderSigner o.maker msgSender = false)
  ∧ (∀ (getRfqOrderHash : RfqOrder → Nat) (msgSender : Nat) (stor : Storage)
      (orders : List RfqOrder),
      (∃ o ∈ orders, msgSender ≠ o.maker ∧ stor.validOrderSigner o.maker msgSender = false) →
      ∃ o ∈ orders, batchCancelRfqOrders getRfqOrderHash msgSender stor orders =
          .error (.onlyOrderMakerAllowed (getRfqOrderHash o) msgSender o.maker) ∧
        msgSender ≠ o.maker ∧ stor.validOrderSigner o.maker msgSender = false) := by
  have hlimit : ∀ (getLimitOrderHash : LimitOrder → Nat) (msgSender : Nat) (stor : Storage)
      (order : LimitOrder),
      cancelLimitOrder getLimitOrderHash msgSender stor order =
          .error (.onlyOrderMakerAllowed (getLimitOrderHash order) msgSender order.maker) ↔
        (msgSender ≠ order.maker ∧ stor.validOrderSigner order.maker msgSender = false) := by
    intro getLimitOrderHash msgSender stor order
    simp only [cancelLimitOrder]
    by_cases hc : msgSender ≠ order.maker ∧ ¬ stor.validOrderSigner order.maker msgSender
    · rw [if_pos hc]
      exact iff_of_true rfl ⟨hc.1, Bool.eq_false_iff.mpr hc.2⟩
    · rw [if_neg hc]
      apply iff_of_false
      · simp
      · intro hcon
        exact hc ⟨hcon.1, by simp [hcon.2]⟩
  have hrfq : ∀ (getRfqOrderHash : RfqOrder → Nat) (msgSender : Nat) (stor : Storage)
      (order : RfqOrder),
      cancelRfqOrder getRfqOrderHash msgSender stor order =
          .error (.onlyOrderMakerAllowed (getRfqOrderHash order) msgSender order.maker) ↔
        (msgSender ≠ order.maker ∧ stor.validOrderSigner order.maker msgSender = false) := by
    intro getRfqOrderHash msgSender stor order
    simp only [cancelRfqOrder]
    by_cases hc : msgSender ≠ order.maker ∧ ¬ stor.validOrderSigner order.maker msgSender
    · rw [if_pos hc]
      exact iff_of_true rfl ⟨hc.1, Bool.eq_false_iff.mpr hc.2⟩
    · rw [if_neg hc]
      apply iff_of_false
      · simp
      · intro hcon
        exact hc ⟨hcon.1, by simp [hcon.2]⟩
  refine ⟨hlimit, hrfq, ?_, ?_⟩
  · intro getLimitOrderHash msgSender stor orders
    induction orders generalizing stor with
    | nil =>
      rintro ⟨o, ho, -⟩
      simp at ho
    | cons a rest ih =>
      rintro ⟨o, ho, hcond⟩
      by_cases ha : msgSender ≠ a.maker ∧ stor.validOrderSigner a.maker msgSender = false
      · refine ⟨a, List.mem_cons_self _ _, ?_, ha.1, ha.2⟩
        simp only [batchCancelLimitOrders, (hlimit getLimitOrderHash msgSender stor a).mpr ha]
      · have hok : cancelLimitOrder getLimitOrderHash msgSender stor a =
            .ok (cancelOrderHash stor (getLimitOrderHash a)) := by
          simp only [cancelLimitOrder]
          rw [if_neg (fun hcon => ha ⟨hcon.1, Bool.eq_false_iff.mpr hcon.2⟩)]
        have ho2 : o ∈ rest := by
          rcases List.mem_cons.mp ho with rfl | h
          · exact absurd hcond ha
          · exact h
        obtain ⟨o3, ho3, heq, hcond3⟩ := ih (cancelOrderHash stor (getLimitOrderHash a))
          ⟨o, ho2, hcond⟩
        refine ⟨o3, List.mem_cons_of_mem _ ho3, ?_, hcond3⟩
        simp only [batchCancelLimitOrders, hok]
        exact heq
  · intro getRfqOrderHash msgSender stor orders
    induction orders generalizing stor with
    | nil =>
      rintro ⟨o, ho, -⟩
      simp at ho
    | cons a rest ih =>
      rintro ⟨o, ho, hcond⟩
      by_cases ha : msgSender ≠ a.maker ∧ stor.validOrderSigner a.maker msgSender = false
      · refine ⟨a, List.mem_cons_self _ _, ?_, ha.1, ha.2⟩
        simp only [batchCancelRfqOrders, (hrfq getRfqOrderHash msgSender stor a).mpr ha]
      · have hok : cancelRfqOrder getRfqOrderHash msgSender stor a =
            .ok (cancelOrderHash stor (getRfqOrderHash a)) := by
          simp only [cancelRfqOrder]
          rw [if_neg (fun hcon => ha ⟨hcon.1, Bool.eq_false_iff.mpr hcon.2⟩)]
        have ho2 : o ∈ rest := by
          rcases List.mem_cons.mp ho with rfl | h
          · exact absurd hcond ha
          · exact h
        obtain ⟨o3, ho3, heq, hcond3⟩ := ih (cancelOrderHash stor (getRfqOrderHash a))
          ⟨o, ho2, hcond⟩
        refine ⟨o3, List.mem_cons_of_mem _ ho3, ?_, hcond3⟩
        simp only [batchCancelRfqOrders, hok]
        exact heq

/-- C8 witness: caller 23 (neither maker 21 nor registered signer) gets
OnlyOrderMakerAllowed from a single cancel, and a batch of maker-21 orders
cancelled by 21 aborts whole because one order has maker 22. -/
theorem C8_witness :
    cancelLimitOrder wHashL 23 emptyStorage wLimitOrder =
      .error (.onlyOrderMakerAllowed (wHashL wLimitOrder) 23 wLimitOrder.maker) ∧
    ∃ o ∈ [wLimitOrder, wForeignMakerOrder],
      batchCancelLimitOrders wHashL 21 emptyStorage [wLimitOrder, wForeignMakerOrder] =
          .error (.onlyOrderMakerAllowed (wHashL o) 21 o.maker) ∧
        21 ≠ o.maker ∧ emptyStorage.validOrderSigner o.maker 21 = false :=
  ⟨(C8_cancel_authorization.1 wHashL 23 emptyStorage wLimitOrder).mpr (by decide),
   C8_cancel_authorization.2.2.1 wHashL 21 emptyStorage [wLimitOrder, wForeignMakerOrder]
     ⟨wForeignMakerOrder, by decide, by decide, by decide⟩⟩

/-- The off-chain domain typehash equals the keccak of the on-chain domain
type string. -/
theorem EXCHANGE_PROXY_DOMAIN_TYPEHASH_eq :
    EXCHANGE_PROXY_DOMAIN_TYPEHASH = keccak256 (asciiBytes FixinEIP712.DOMAIN_TYPE_STRING) := by
  unfold EXCHANGE_PROXY_DOMAIN_TYPEHASH
  rw [domainTypeString_agree]

/-- C7.  Amended off-chain / on-chain hash agreement: for every struct hash,
every nonzero chain id and every nonempty verifying-contract string, the
TypeScript getExchangeProxyEIP712Hash equals the Solidity
FixinEIP712._getEIP712Hash of a contract deployed on that chain at the
address the string denotes; both sides hash the byte-identical 0x1901
envelope over the same domain separator (name Exchange, version 1.0.0).  At
chain id 0 the two sides disagree (see the counterexample): the off-chain
hasher silently substitutes chain id 1. -/
theorem C7_offchain_onchain_hash_agree (structHash chainId : Nat) (vc : String)
    (hc : chainId ≠ 0) (hvc : vc ≠ "") :
    getExchangeProxyEIP712Hash structHash (some chainId) (some vc) =
      FixinEIP712.getEIP712Hash structHash chainId (natOfHex vc) := by
  have hdomain : getExchangeProxyEIP712DomainHash (some chainId) (some vc) =
      FixinEIP712.EIP712_DOMAIN_SEPARATOR chainId (natOfHex vc) := by
    simp only [getExchangeProxyEIP712DomainHash, createExchangeProxyEIP712Domain,
      EXCHANGE_PROXY_EIP712_DOMAIN_DEFAULT, FixinEIP712.EIP712_DOMAIN_SEPARATOR]
    rw [if_pos hc, if_pos hvc, EXCHANGE_PROXY_DOMAIN_TYPEHASH_eq]
  simp only [getExchangeProxyEIP712Hash, FixinEIP712.getEIP712Hash, hdomain]

/-- Keccak of the shared domain type declaration string (the well-known
EIP712Domain typehash). -/
theorem keccak256_domainTypeString_value :
    keccak256 (asciiBytes FixinEIP712.DOMAIN_TYPE_STRING) =
      0x8b73c3c69bb8fe3d512ecc4cf759cc79239f7b179b0ffacaa9a75d522b39400f := by
  decide

theorem keccak256_Exchange_value :
    keccak256 (asciiBytes "Exchange") =
      0xddd112a261429abc594f5771eb08d7fa47bff456b2e5f1a47907b78573e33d96 := by
  decide

theorem keccak256_version_value :
    keccak256 (asciiBytes "1.0.0") =
      0x06c015bd22b4c69690933c1058878ebdfef31f9aaae40bbe86d8a09fe1b2972c := by
  decide

/-- Off-chain domain hash at chain id 0 and the zero address: the falsy
chain id is replaced by the default 1 before hashing. -/
theorem ts_domainHash_chain0_value :
    getExchangeProxyEIP712DomainHash (some 0) (some AddressZeroString) =
      0x362ac9d2192ff2154883d0115220da33a95f7a767214aaddd4be54f99d84b776 := by
  show keccak256 (bytes32OfNat EXCHANGE_PROXY_DOMAIN_TYPEHASH ++
    bytes32OfNat (keccak256 (asciiBytes "Exchange")) ++
    bytes32OfNat (keccak256 (asciiBytes "1.0.0")) ++
    bytes32OfNat 1 ++
    bytes32OfNat (natOfHex AddressZeroString)) = _
  rw [EXCHANGE_PROXY_DOMAIN_TYPEHASH_eq, keccak256_domainTypeString_value,
    keccak256_Exchange_value, keccak256_version_value]
  decide

theorem ts_finalHash_chain0_value :
    getExchangeProxyEIP712Hash 0 (some 0) (some AddressZeroString) =
      0xcd0be51eb394acf07197725a626e947b408999efaab14bb1677b06c853e6daa7 := by
  unfold getExchangeProxyEIP712Hash
  rw [ts_domainHash_chain0_value]
  decide

/-- On-chain domain separator of a chain-id-0 deployment at the zero
address: chain id 0 is hashed as is. -/
theorem sol_domainSeparator_chain0_value :
    FixinEIP712.EIP712_DOMAIN_SEPARATOR 0 (natOfHex AddressZeroString) =
      0x8e4133888bb2fd35b383b208de0fc09f775341dab8882085a4ae5af3044c3fd7 := by
  unfold FixinEIP712.EIP712_DOMAIN_SEPARATOR
  rw [keccak256_domainTypeString_value, keccak256_Exchange_value, keccak256_version_value]
  decide

theorem sol_finalHash_chain0_value :
    FixinEIP712.getEIP712Hash 0 0 (natOfHex AddressZeroString) =
      0x2e6450f66ae97bac1209d15105bd4470dbc6fb3567acc860d57d15db56e0c646 := by
  unfold FixinEIP712.getEIP712Hash
  rw [sol_domainSeparator_chain0_value]
  decide

/-- C7 counterexample: with chain id 0, struct hash 0 and the zero address,
the off-chain hash (which substitutes chain id 1 into the domain) differs
from the on-chain hash of a chain-id-0 deployment, so the claimed agreement
for every chain id fails at chain id 0. -/
theorem C7_counterexample :
    getExchangeProxyEIP712Hash 0 (some 0) (some AddressZeroString) ≠
      FixinEIP712.getEIP712Hash 0 0 (natOfHex AddressZeroString) := by
  rw [ts_finalHash_chain0_value, sol_finalHash_chain0_value]
  decide

/-- C7 witness: the agreement theorem applied at chain id 1, struct hash 0
and the zero-address string. -/
theorem C7_witness :
    (1 : Nat) ≠ 0 ∧ AddressZeroString ≠ "" ∧
    getExchangeProxyEIP712Hash 0 (some 1) (some AddressZeroString) =
      FixinEIP712.getEIP712Hash 0 1 (natOfHex AddressZeroString) :=
  ⟨by decide, by decide, C7_offchain_onchain_hash_agree 0 1 AddressZeroString
    (by decide) (by decide)⟩

/-- C10.  The off-chain hasher treats a chain id of 0 and an absent or empty
verifyingContract string as absent and substitutes the defaults (chain id 1,
the zero address, name Exchange, version 1.0.0); consequently the domain and
final hashes computed with chain id 0 equal those computed with chain id 1,
and those computed with the empty verifying-contract string equal those
computed with the zero address.  No input is rejected: the functions are
total. -/
theorem C10_falsy_domain_parameters_use_defaults :
    (∀ vc, createExchangeProxyEIP712Domain (some 0) vc =
      createExchangeProxyEIP712Domain none vc)
  ∧ (∀ vc, createExchangeProxyEIP712Domain (some 0) vc =
      createExchangeProxyEIP712Domain (some 1) vc)
  ∧ (∀ c, createExchangeProxyEIP712Domain c (some "") = createExchangeProxyEIP712Domain c none)
  ∧ (∀ c, createExchangeProxyEIP712Domain c (some "") =
      createExchangeProxyEIP712Domain c (some AddressZeroString))
  ∧ createExchangeProxyEIP712Domain (some 0) (some "") =
      { name := "Exchange", version := "1.0.0", chainId := 1,
        verifyingContract := AddressZeroString }
  ∧ (∀ structHash vc,
      getExchangeProxyEIP712DomainHash (some 0) vc =
        getExchangeProxyEIP712DomainHash (some 1) vc ∧
      getExchangeProxyEIP712Hash structHash (some 0) vc =
        getExchangeProxyEIP712Hash structHash (some 1) vc)
  ∧ (∀ structHash c,
      getExchangeProxyEIP712DomainHash c (some "") =
        getExchangeProxyEIP712DomainHash c (some AddressZeroString) ∧
      getExchangeProxyEIP712Hash structHash c (some "") =
        getExchangeProxyEIP712Hash structHash c (some AddressZeroString)) := by
  refine ⟨fun vc => rfl, fun vc => rfl, fun c => rfl, fun c => rfl, rfl,
    fun structHash vc => ⟨rfl, rfl⟩, fun structHash c => ⟨rfl, rfl⟩⟩

